import Mathlib

/-!
Verification of the world-generation core of a browser 2D open-world game.

The JavaScript source is embedded shallowly:

* JS numbers appearing in exact integer/rational computations (the LCG state,
  densities, probability rolls) are modelled with `Int` / `ℚ` (exact
  arithmetic; IEEE rounding is idealised away);
* JS numbers appearing in continuous computations (world coordinates,
  noise values, trig) are modelled with `ℝ`;
* the JS `%` operator (sign of the dividend) is `Int.tmod`;
* `Array.prototype.sort` with the comparator `(a, b) => a.distance - b.distance`
  is modelled by a stable sort producing a list sorted by `distance`;
* the global mutable id counter of `generateId` (together with `Date.now()`)
  is threaded explicitly: ids are pairs `(now, counter)`;
* `setTimeout(cb, 30000)` is modelled by returning the scheduled timer
  `(objectId, 30000)` and by an explicit `fireRespawn` function giving the
  callback's effect.
-/

open Classical

/-- Park-Miller LCG from the source (`utils.js`): mutable `state` plus the
original `seed` kept for `reset`. -/
structure SeededRandom where
  seed : Int
  state : Int
deriving DecidableEq

/-- The constructor `new SeededRandom(seed)`: `state` starts at `seed`. -/
def SeededRandom.ofSeed (seed : Int) : SeededRandom :=
  { seed := seed, state := seed }

/-- `next()`: `state = (16807 * state) % 2147483647; return state / 2147483647`.
The JS `%` has the sign of the dividend, hence `Int.tmod`. -/
def SeededRandom.next (r : SeededRandom) : ℚ × SeededRandom :=
  let s := (16807 * r.state).tmod 2147483647
  ((s : ℚ) / 2147483647, { r with state := s })

/-- `nextInt(min, max)`: `Math.floor(next() * (max - min + 1)) + min`. -/
def SeededRandom.nextInt (r : SeededRandom) (lo hi : Int) : Int × SeededRandom :=
  let (v, r') := r.next
  (⌊v * ((hi : ℚ) - (lo : ℚ) + 1)⌋ + lo, r')

/-- The state of the generator after `n` calls to `next()`. -/
def SeededRandom.iter (r : SeededRandom) : Nat → SeededRandom
  | 0 => r
  | n + 1 => (r.next.2).iter n

/-- The value returned by the `(n+1)`-st call to `next()` on a fresh
generator seeded with `seed`. -/
def lcgValAt (seed : Int) (n : Nat) : ℚ :=
  (((SeededRandom.ofSeed seed).iter n).next).1

/-- The state after `n` calls to `next()` on a fresh generator. -/
def lcgStateAt (seed : Int) (n : Nat) : Int :=
  ((SeededRandom.ofSeed seed).iter n).state

/-- The integer returned when the `(n+1)`-st draw is consumed by
`nextInt(lo, hi)`. -/
def lcgNextIntAt (seed : Int) (n : Nat) (lo hi : Int) : Int :=
  ((((SeededRandom.ofSeed seed).iter n)).nextInt lo hi).1

/-- The chunk-local seed used by `generateChunk`:
`this.seed + chunkX * 1000 + chunkY`. -/
def chunkSeed (worldSeed cx cy : Int) : Int :=
  worldSeed + cx * 1000 + cy

/-- Gradient/permutation noise from the source (`SimplexNoise`): a
permutation table (256 entries duplicated to 512) and 256 unit gradient
vectors, both derived from a `SeededRandom` at construction. -/
structure SimplexNoise where
  permutation : List Nat
  gradients : List (ℝ × ℝ)

/-- Fisher-Yates shuffle loop of `buildPermutation`: runs `i = 255, ..., 1`,
drawing `j = Math.floor(rng.next() * (i + 1))` and swapping entries `i`, `j`. -/
def fisherYates : Nat → List Nat → SeededRandom → List Nat × SeededRandom
  | 0, perm, rng => (perm, rng)
  | i + 1, perm, rng =>
      let (v, rng') := rng.next
      let j := (⌊v * ((i : ℚ) + 2)⌋).toNat
      let pi := perm.getD (i + 1) 0
      let pj := perm.getD j 0
      fisherYates i ((perm.set (i + 1) pj).set j pi) rng'

/-- `buildPermutation()`: identity table `0..255`, shuffled, then
duplicated to length 512. -/
def buildPermutation (rng : SeededRandom) : List Nat × SeededRandom :=
  let (p, rng') := fisherYates 255 (List.range 256) rng
  (p ++ p, rng')

/-- Gradient construction loop of `buildGradients`: 256 angles
`rng.next() * Math.PI * 2`, gradients `(cos angle, sin angle)`. -/
noncomputable def buildGradientsAux :
    Nat → List (ℝ × ℝ) → SeededRandom → List (ℝ × ℝ) × SeededRandom
  | 0, acc, rng => (acc, rng)
  | k + 1, acc, rng =>
      let angle : ℝ := (rng.next.1 : ℝ) * Real.pi * 2
      buildGradientsAux k (acc ++ [(Real.cos angle, Real.sin angle)]) rng.next.2

/-- `buildGradients()`. -/
noncomputable def buildGradients (rng : SeededRandom) : List (ℝ × ℝ) × SeededRandom :=
  buildGradientsAux 256 [] rng

/-- The `SimplexNoise` constructor: one shared `SeededRandom` builds the
permutation first, then the gradients. -/
noncomputable def SimplexNoise.ofSeed (seed : Int) : SimplexNoise :=
  let rng := SeededRandom.ofSeed seed
  let p := (buildPermutation rng).1
  let g := (buildGradients (buildPermutation rng).2).1
  { permutation := p, gradients := g }

/-- The quintic fade curve `t*t*t*(t*(t*6-15)+10)`. -/
def SimplexNoise.fade (t : ℝ) : ℝ :=
  t * t * t * (t * (t * 6 - 15) + 10)

/-- `lerp(a, b, t) = a + t * (b - a)`. -/
def SimplexNoise.lerp (a b t : ℝ) : ℝ :=
  a + t * (b - a)

/-- `dot(g, x, y) = g.x * x + g.y * y`. -/
def SimplexNoise.dot (g : ℝ × ℝ) (x y : ℝ) : ℝ :=
  g.1 * x + g.2 * y

/-- `noise2D(x, y)`: classic Perlin-style gradient interpolation on the
unit cell. `Math.floor(x) & 255` is `⌊x⌋ mod 256` (Euclidean, non-negative);
out-of-range table reads (never reached for the tables the program builds)
default to `0` resp. `(0, 0)`. -/
noncomputable def SimplexNoise.noise2D (n : SimplexNoise) (x y : ℝ) : ℝ :=
  let X : Nat := ((⌊x⌋ : Int) % 256).toNat
  let Y : Nat := ((⌊y⌋ : Int) % 256).toNat
  let xf : ℝ := x - ⌊x⌋
  let yf : ℝ := y - ⌊y⌋
  let u := SimplexNoise.fade xf
  let v := SimplexNoise.fade yf
  let aa := n.permutation.getD X 0 + Y
  let ab := n.permutation.getD X 0 + Y + 1
  let ba := n.permutation.getD (X + 1) 0 + Y
  let bb := n.permutation.getD (X + 1) 0 + Y + 1
  let gradAA := n.gradients.getD (n.permutation.getD aa 0 % 256) (0, 0)
  let gradBA := n.gradients.getD (n.permutation.getD ba 0 % 256) (0, 0)
  let gradAB := n.gradients.getD (n.permutation.getD ab 0 % 256) (0, 0)
  let gradBB := n.gradients.getD (n.permutation.getD bb 0 % 256) (0, 0)
  let x1 := SimplexNoise.lerp (SimplexNoise.dot gradAA xf yf)
    (SimplexNoise.dot gradBA (xf - 1) yf) u
  let x2 := SimplexNoise.lerp (SimplexNoise.dot gradAB xf (yf - 1))
    (SimplexNoise.dot gradBB (xf - 1) (yf - 1)) u
  SimplexNoise.lerp x1 x2 v

/-- The accumulation loop of `fbm`: octave count, current amplitude and
frequency, accumulated value and amplitude sum. -/
noncomputable def fbmAux (n : SimplexNoise) (x y lac pers : ℝ) :
    Nat → ℝ → ℝ → ℝ → ℝ → ℝ × ℝ
  | 0, _, _, acc, maxV => (acc, maxV)
  | k + 1, amp, freq, acc, maxV =>
      fbmAux n x y lac pers k (amp * pers) (freq * lac)
        (acc + amp * n.noise2D (x * freq) (y * freq)) (maxV + amp)

/-- `fbm(x, y, octaves, lacunarity, persistence)`: octave sum divided by the
sum of amplitudes. (The source defaults are octaves 4, lacunarity 2,
persistence 0.5; callers passing only octaves get lacunarity 2 and
persistence 0.5.) -/
noncomputable def SimplexNoise.fbm (n : SimplexNoise) (x y : ℝ) (octaves : Nat)
    (lac pers : ℝ) : ℝ :=
  let (v, maxV) := fbmAux n x y lac pers octaves 1 1 0 0
  v / maxV

/-- `Math.hypot`. -/
noncomputable def jsHypot (a b : ℝ) : ℝ :=
  Real.sqrt (a * a + b * b)

/-- `Math.atan2(y, x)` (quadrant-correct arctangent). Its exact value is
never needed by the proofs; the definition fixes it for the embedding. -/
noncomputable def jsAtan2 (y x : ℝ) : ℝ :=
  if 0 < x then Real.arctan (y / x)
  else if x < 0 then
    (if 0 ≤ y then Real.arctan (y / x) + Real.pi else Real.arctan (y / x) - Real.pi)
  else
    (if 0 < y then Real.pi / 2 else if y < 0 then -(Real.pi / 2) else 0)

/-- Biome labels produced by the classifier. -/
inductive Biome
  | water | beach | mountain | rocky | forest | desert | plains
deriving DecidableEq

/-- Tree subtypes: pine in forest, oak in plains. -/
inductive TreeType
  | pine | oak
deriving DecidableEq

/-- Resource kinds carried by harvestable objects. -/
inductive Resource
  | wood | stone | gem | flower | mushroom | berry
deriving DecidableEq

/-- Object types placed during chunk generation. -/
inductive ObjType
  | tree | rock | flower | mushroom | bush | cactus
deriving DecidableEq

/-- Building types of `generateBuilding`. -/
inductive BType
  | house | shop | inn | well
deriving DecidableEq

/-- NPC types of `spawnNPCs`. -/
inductive NpcType
  | villager | merchant | elder | guard | wanderer
deriving DecidableEq

/-- NPC behaviour states used by `updateNPC`. -/
inductive NpcState
  | idle | walking
deriving DecidableEq

/-- Ids from `generateId()`: the pair (Date.now(), incremented global
counter), standing for the string `entity_<now>_<counter>`. -/
abbrev EntityId := Nat × Nat

/-- A world object (tree/rock/flower/mushroom/bush/cactus). Fields absent
from a given JS object literal are `none`. -/
structure Obj where
  id : EntityId
  type : ObjType
  treeType : Option TreeType
  x : ℝ
  y : ℝ
  harvestable : Bool
  resource : Option Resource
  amount : Option Int

/-- A building generated by `generateBuilding`. -/
structure Building where
  id : EntityId
  type : BType
  x : ℝ
  y : ℝ
  width : ℝ
  height : ℝ
  door : Bool
  interactable : Bool

/-- A terrain tile: display color and biome. -/
structure Tile where
  color : String
  biome : Biome
deriving DecidableEq

/-- A generated chunk. -/
structure Chunk where
  x : Int
  y : Int
  tiles : List (List Tile)
  objects : List Obj
  generated : Bool

/-- An NPC as created by `spawnNPCs`. -/
structure NPC where
  id : EntityId
  type : NpcType
  x : ℝ
  y : ℝ
  homeX : ℝ
  homeY : ℝ
  direction : ℝ
  state : NpcState
  stateTimer : ℝ
  interactable : Bool

/-- The world: seed, the noise fields built in the constructor, the chunk
cache (a `Map` in insertion order) and the flat building/NPC lists. The
constructor's `entities`, `animals` and `resources` collections are omitted:
no operation verified here ever reads them (`animals` is touched only by
`updateAnimal`). -/
structure World where
  seed : Int
  noise : SimplexNoise
  rng : SeededRandom
  chunks : List ((Int × Int) × Chunk)
  buildings : List Building
  npcs : List NPC
  biomeNoise : SimplexNoise
  moistureNoise : SimplexNoise

/-- The `World` constructor for a given seed. -/
noncomputable def World.ofSeed (seed : Int) : World :=
  { seed := seed
    noise := SimplexNoise.ofSeed seed
    rng := SeededRandom.ofSeed seed
    chunks := []
    buildings := []
    npcs := []
    biomeNoise := SimplexNoise.ofSeed (seed + 1)
    moistureNoise := SimplexNoise.ofSeed (seed + 2) }

/-- `getBiome(worldX, worldY)`: elevation fbm (4 octaves) of `this.noise`
and moisture fbm (3 octaves) of `this.moistureNoise`, then fixed
thresholds. -/
noncomputable def World.getBiome (w : World) (x y : ℝ) : Biome :=
  let elevation := w.noise.fbm (x * 0.002) (y * 0.002) 4 2 0.5
  let moisture := w.moistureNoise.fbm (x * 0.002 * 1.5) (y * 0.002 * 1.5) 3 2 0.5
  if elevation < -0.3 then .water
  else if elevation < -0.2 then .beach
  else if elevation > 0.6 then .mountain
  else if elevation > 0.5 then .rocky
  else if moisture > 0.3 then .forest
  else if moisture < -0.2 then .desert
  else .plains

/-- `getTerrainColor(worldX, worldY)`. -/
noncomputable def World.getTerrainColor (w : World) (x y : ℝ) : String :=
  let biome := w.getBiome x y
  let detail := w.noise.noise2D (x * 0.1) (y * 0.1) * 0.1
  match biome with
  | .water => if w.noise.fbm (x * 0.002) (y * 0.002) 4 2 0.5 < -0.4
      then "#1E3A8A" else "#4169E1"
  | .beach => "#F4D03F"
  | .mountain => "#696969"
  | .rocky => "#808080"
  | .forest => if detail > 0 then "#228B22" else "#1B5E20"
  | .desert => if detail > 0 then "#D2B48C" else "#C4A35A"
  | .plains => if detail > 0 then "#90EE90" else "#7CCD7C"

/-- Footprint test of the building-collision loop in `isWalkable`
(all four comparisons inclusive). -/
def inFootprint (b : Building) (x y : ℝ) : Prop :=
  b.x ≤ x ∧ x ≤ b.x + b.width ∧ b.y ≤ y ∧ y ≤ b.y + b.height

/-- Door test of `isWalkable`: the building has a door and the point is
within the 20px-per-axis window around the bottom-midpoint of the
footprint. -/
def dooropen (b : Building) (x y : ℝ) : Prop :=
  b.door = true ∧ |x - (b.x + b.width / 2)| < 20 ∧ |y - (b.y + b.height)| < 20

/-- The building loop of `isWalkable`: the first building whose footprint
contains the point decides (door test), later buildings are not examined;
if no footprint contains the point the result is `True`. -/
def walkableBuildings (x y : ℝ) : List Building → Prop
  | [] => True
  | b :: rest =>
      if inFootprint b x y then dooropen b x y else walkableBuildings x y rest

/-- `isWalkable(worldX, worldY)`: false on water biome, otherwise decided
by the building loop. -/
noncomputable def World.isWalkable (w : World) (x y : ℝ) : Prop :=
  w.getBiome x y ≠ .water ∧ walkableBuildings x y w.buildings

/-- Generation densities from `config.js`. -/
def TREE_DENSITY : ℚ := 0.08

/-- `ROCK_DENSITY` from `config.js`; the rock check uses twice this value. -/
def ROCK_DENSITY : ℚ := 0.03

/-- `FLOWER_DENSITY` from `config.js`. -/
def FLOWER_DENSITY : ℚ := 0.05

/-- `BUILDING_DENSITY` from `config.js`. -/
def BUILDING_DENSITY : ℚ := 0.002

/-- Tree placement block: fires when the biome is forest or plains and the
shared per-tile roll is below `TREE_DENSITY`; consumes two jitter draws and
one `nextInt(2, 4)` draw. -/
noncomputable def treeStep (b : Biome) (roll : ℚ) (wx wy : ℝ) (now : Nat)
    (rng : SeededRandom) (ctr : Nat) : List Obj × SeededRandom × Nat :=
  if (b = .forest ∨ b = .plains) ∧ roll < TREE_DENSITY then
    let tt := if b = .forest then TreeType.pine else TreeType.oak
    let (jx, r1) := rng.next
    let (jy, r2) := r1.next
    let (amt, r3) := r2.nextInt 2 4
    ([{ id := (now, ctr + 1), type := .tree, treeType := some tt,
        x := wx + ((jx : ℝ) - 0.5) * 32, y := wy + ((jy : ℝ) - 0.5) * 32,
        harvestable := true, resource := some .wood, amount := some amt }],
      r3, ctr + 1)
  else ([], rng, ctr)

/-- Rock placement block: biome rocky or mountain, shared roll below
`2 * ROCK_DENSITY`; draws jitter x, jitter y, the gem/stone draw
(`next() > 0.9`), and `nextInt(1, 3)`. -/
noncomputable def rockStep (b : Biome) (roll : ℚ) (wx wy : ℝ) (now : Nat)
    (rng : SeededRandom) (ctr : Nat) : List Obj × SeededRandom × Nat :=
  if (b = .rocky ∨ b = .mountain) ∧ roll < ROCK_DENSITY * 2 then
    let (jx, r1) := rng.next
    let (jy, r2) := r1.next
    let (g, r3) := r2.next
    let (amt, r4) := r3.nextInt 1 3
    ([{ id := (now, ctr + 1), type := .rock, treeType := none,
        x := wx + ((jx : ℝ) - 0.5) * 32, y := wy + ((jy : ℝ) - 0.5) * 32,
        harvestable := true,
        resource := some (if g > 0.9 then Resource.gem else Resource.stone),
        amount := some amt }],
      r4, ctr + 1)
  else ([], rng, ctr)

/-- Flower placement block: plains biome, shared roll below
`FLOWER_DENSITY`; yield fixed at 1. -/
noncomputable def flowerStep (b : Biome) (roll : ℚ) (wx wy : ℝ) (now : Nat)
    (rng : SeededRandom) (ctr : Nat) : List Obj × SeededRandom × Nat :=
  if b = .plains ∧ roll < FLOWER_DENSITY then
    let (jx, r1) := rng.next
    let (jy, r2) := r1.next
    ([{ id := (now, ctr + 1), type := .flower, treeType := none,
        x := wx + ((jx : ℝ) - 0.5) * 32, y := wy + ((jy : ℝ) - 0.5) * 32,
        harvestable := true, resource := some .flower, amount := some 1 }],
      r2, ctr + 1)
  else ([], rng, ctr)

/-- Mushroom placement block: in forest only, a fresh draw below 0.02
(the draw is consumed only when the biome is forest, because `&&`
short-circuits). -/
noncomputable def mushroomStep (b : Biome) (wx wy : ℝ) (now : Nat)
    (rng : SeededRandom) (ctr : Nat) : List Obj × SeededRandom × Nat :=
  if b = .forest then
    let (d, r1) := rng.next
    if d < 0.02 then
      let (jx, r2) := r1.next
      let (jy, r3) := r2.next
      ([{ id := (now, ctr + 1), type := .mushroom, treeType := none,
          x := wx + ((jx : ℝ) - 0.5) * 32, y := wy + ((jy : ℝ) - 0.5) * 32,
          harvestable := true, resource := some .mushroom, amount := some 1 }],
        r3, ctr + 1)
    else ([], r1, ctr)
  else ([], rng, ctr)

/-- Berry-bush placement block: forest or plains, fresh draw below 0.015,
yield `nextInt(2, 5)`. -/
noncomputable def bushStep (b : Biome) (wx wy : ℝ) (now : Nat)
    (rng : SeededRandom) (ctr : Nat) : List Obj × SeededRandom × Nat :=
  if b = .forest ∨ b = .plains then
    let (d, r1) := rng.next
    if d < 0.015 then
      let (jx, r2) := r1.next
      let (jy, r3) := r2.next
      let (amt, r4) := r3.nextInt 2 5
      ([{ id := (now, ctr + 1), type := .bush, treeType := none,
          x := wx + ((jx : ℝ) - 0.5) * 32, y := wy + ((jy : ℝ) - 0.5) * 32,
          harvestable := true, resource := some .berry, amount := some amt }],
        r4, ctr + 1)
    else ([], r1, ctr)
  else ([], rng, ctr)

/-- Cactus placement block: desert, fresh draw below 0.02; cacti are not
harvestable and carry no resource or amount fields. -/
noncomputable def cactusStep (b : Biome) (wx wy : ℝ) (now : Nat)
    (rng : SeededRandom) (ctr : Nat) : List Obj × SeededRandom × Nat :=
  if b = .desert then
    let (d, r1) := rng.next
    if d < 0.02 then
      let (jx, r2) := r1.next
      let (jy, r3) := r2.next
      ([{ id := (now, ctr + 1), type := .cactus, treeType := none,
          x := wx + ((jx : ℝ) - 0.5) * 32, y := wy + ((jy : ℝ) - 0.5) * 32,
          harvestable := false, resource := none, amount := none }],
        r3, ctr + 1)
    else ([], r1, ctr)
  else ([], rng, ctr)

/-- `generateBuilding(x, y, rng)`: type drawn uniformly from
house/shop/inn/well via `randomChoice`; wells are fixed 40 by 40 and
consume no size draws, other types draw width 60-100 and height 50-80;
only non-well buildings have a door. -/
noncomputable def generateBuilding (x y : ℝ) (now : Nat)
    (rng : SeededRandom) (ctr : Nat) : Building × SeededRandom × Nat :=
  let v := rng.next.1
  let r1 := rng.next.2
  let btype := [BType.house, BType.shop, BType.inn, BType.well].getD
    (⌊v * 4⌋).toNat BType.house
  let wdp :=
    if btype = .well then ((40 : ℝ), r1)
    else (((r1.nextInt 60 100).1 : ℝ), (r1.nextInt 60 100).2)
  let htp :=
    if btype = .well then ((40 : ℝ), wdp.2)
    else (((wdp.2.nextInt 50 80).1 : ℝ), (wdp.2.nextInt 50 80).2)
  ({ id := (now, ctr + 1), type := btype, x := x, y := y,
     width := wdp.1, height := htp.1,
     door := decide (btype ≠ BType.well), interactable := true }, htp.2, ctr + 1)

/-- Building placement block: plains, fresh draw below `BUILDING_DENSITY`;
the building goes to the world's flat building list, not to the chunk. -/
noncomputable def buildingStep (b : Biome) (wx wy : ℝ) (now : Nat)
    (rng : SeededRandom) (ctr : Nat) : List Building × SeededRandom × Nat :=
  if b = .plains then
    let (d, r1) := rng.next
    if d < BUILDING_DENSITY then
      let (bld, r2, c2) := generateBuilding wx wy now r1 ctr
      ([bld], r2, c2)
    else ([], r1, ctr)
  else ([], rng, ctr)

/-- Object generation for one tile of `generateChunk`: water/beach tiles
are skipped before any draw; otherwise one shared roll is drawn and the
seven placement blocks run in source order on the chunk-local stream. -/
noncomputable def genTileObjects (b : Biome) (wx wy : ℝ) (now : Nat)
    (rng : SeededRandom) (ctr : Nat) :
    List Obj × List Building × SeededRandom × Nat :=
  if b = .water ∨ b = .beach then ([], [], rng, ctr) else
  let roll := rng.next.1
  let r0 := rng.next.2
  let t := treeStep b roll wx wy now r0 ctr
  let rk := rockStep b roll wx wy now t.2.1 t.2.2
  let f := flowerStep b roll wx wy now rk.2.1 rk.2.2
  let m := mushroomStep b wx wy now f.2.1 f.2.2
  let bu := bushStep b wx wy now m.2.1 m.2.2
  let ca := cactusStep b wx wy now bu.2.1 bu.2.2
  let bl := buildingStep b wx wy now ca.2.1 ca.2.2
  (t.1 ++ rk.1 ++ f.1 ++ m.1 ++ bu.1 ++ ca.1, bl.1, bl.2.1, bl.2.2)

/-- The tile grid of `generateChunk`: 16 by 16 tiles sampled at the tile's
top-left world pixel. -/
noncomputable def World.chunkTiles (w : World) (cx cy : Int) : List (List Tile) :=
  (List.range 16).map fun ty => (List.range 16).map fun tx =>
    let wx : ℝ := (cx : ℝ) * 512 + (tx : ℝ) * 32
    let wy : ℝ := (cy : ℝ) * 512 + (ty : ℝ) * 32
    { color := w.getTerrainColor wx wy, biome := w.getBiome wx wy }

/-- Row-major tile traversal order of the object pass (outer `ty`,
inner `tx`). -/
def tileOrder : List (Nat × Nat) :=
  (List.range 16).flatMap fun ty => (List.range 16).map fun tx => (ty, tx)

/-- The object pass of `generateChunk`: per tile, reads the biome from the
tile grid and runs `genTileObjects` at the tile centre, threading the
chunk-local rng and the id counter. -/
noncomputable def genObjectsLoop (tiles : List (List Tile)) (cx cy : Int) (now : Nat) :
    List (Nat × Nat) → SeededRandom → Nat →
      List Obj × List Building × SeededRandom × Nat
  | [], rng, ctr => ([], [], rng, ctr)
  | (ty, tx) :: rest, rng, ctr =>
      let wx : ℝ := (cx : ℝ) * 512 + (tx : ℝ) * 32 + 16
      let wy : ℝ := (cy : ℝ) * 512 + (ty : ℝ) * 32 + 16
      let b := ((tiles.getD ty []).getD tx { color := "", biome := .plains }).biome
      let g := genTileObjects b wx wy now rng ctr
      let r := genObjectsLoop tiles cx cy now rest g.2.2.1 g.2.2.2
      (g.1 ++ r.1, g.2.1 ++ r.2.1, r.2.2.1, r.2.2.2)

/-- Lookup in the chunk `Map` (insertion-order association list). -/
def lookupChunk : List ((Int × Int) × Chunk) → (Int × Int) → Option Chunk
  | [], _ => none
  | (k', c) :: rest, k => if k' = k then some c else lookupChunk rest k

/-- `Map.set` on the chunk cache: replaces in place, else appends. -/
def setChunk : List ((Int × Int) × Chunk) → (Int × Int) → Chunk →
    List ((Int × Int) × Chunk)
  | [], k, c => [(k, c)]
  | (k', c') :: rest, k, c =>
      if k' = k then (k, c) :: rest else (k', c') :: setChunk rest k c

/-- `generateChunk(chunkX, chunkY)`: chunk-local rng seeded with
`seed + cx*1000 + cy`, tile grid, object pass, then the chunk is stored in
the cache and generated buildings appended to the world list. `now`/`ctr`
thread the global `generateId` state; the final id counter is returned. -/
noncomputable def World.generateChunk (w : World) (cx cy : Int) (now ctr : Nat) :
    Chunk × World × Nat :=
  let rng0 := SeededRandom.ofSeed (chunkSeed w.seed cx cy)
  let tiles := w.chunkTiles cx cy
  let g := genObjectsLoop tiles cx cy now tileOrder rng0 ctr
  let chunk : Chunk :=
    { x := cx, y := cy, tiles := tiles, objects := g.1, generated := true }
  (chunk,
    { w with chunks := setChunk w.chunks (cx, cy) chunk,
             buildings := w.buildings ++ g.2.1 },
    g.2.2.2)

/-- `getChunk(chunkX, chunkY)`: generate on miss, then return the cache
entry. -/
noncomputable def World.getChunk (w : World) (cx cy : Int) (now ctr : Nat) :
    Chunk × World × Nat :=
  match lookupChunk w.chunks (cx, cy) with
  | some c => (c, w, ctr)
  | none =>
      let (_, w', ctr') := w.generateChunk cx cy now ctr
      ((lookupChunk w'.chunks (cx, cy)).getD
        { x := cx, y := cy, tiles := [], objects := [], generated := true },
        w', ctr')

/-- The `findIndex`/`splice` pattern of `harvestObject` on one chunk's
object list: splits the list at the first object with the given id. -/
def harvestScan (i : EntityId) : List Obj → Option (List Obj × Obj × List Obj)
  | [] => none
  | o :: os =>
      if o.id = i then some ([], o, os)
      else (harvestScan i os).map fun t => (o :: t.1, t.2.1, t.2.2)

/-- The chunk loop of `harvestObject`: chunks are visited in insertion
order; a found but non-harvestable match does not stop the loop; trees and
rocks are spliced out, other types are flagged non-harvestable and a
30000ms respawn timer is scheduled. Returns the result, the rebuilt chunk
list and the scheduled timers. -/
def harvestAux (i : EntityId) :
    List ((Int × Int) × Chunk) →
      Option (Option Resource × Option Int) × List ((Int × Int) × Chunk) ×
        List (EntityId × Nat)
  | [] => (none, [], [])
  | (k, c) :: rest =>
      match harvestScan i c.objects with
      | some (pre, o, post) =>
          if o.harvestable then
            if o.type = .tree ∨ o.type = .rock then
              (some (o.resource, o.amount),
                (k, { c with objects := pre ++ post }) :: rest, [])
            else
              (some (o.resource, o.amount),
                (k, { c with objects :=
                  pre ++ ({ o with harvestable := false } :: post) }) :: rest,
                [(i, 30000)])
          else
            ((harvestAux i rest).1, (k, c) :: (harvestAux i rest).2.1,
              (harvestAux i rest).2.2)
      | none =>
          ((harvestAux i rest).1, (k, c) :: (harvestAux i rest).2.1,
            (harvestAux i rest).2.2)

/-- `harvestObject(objectId)`: returns `{resource, amount}` or `null`,
the updated world, and the list of timers scheduled by the call. -/
def World.harvestObject (w : World) (i : EntityId) :
    Option (Option Resource × Option Int) × World × List (EntityId × Nat) :=
  ((harvestAux i w.chunks).1,
    { w with chunks := (harvestAux i w.chunks).2.1 },
    (harvestAux i w.chunks).2.2)

/-- Effect of the `setTimeout` callback scheduled by `harvestObject`: the
closed-over object (identified by its id) gets `harvestable = true` again. -/
def fireRespawn (w : World) (i : EntityId) : World :=
  { w with chunks := w.chunks.map fun e =>
      (e.1, { e.2 with objects := e.2.objects.map fun o =>
        if o.id = i then { o with harvestable := true } else o }) }

/-- A record returned by the spatial queries: a copy of the entity spread
together with a `distance` field. -/
structure NearObj where
  obj : Obj
  distance : ℝ

/-- A copied NPC record with `distance`. -/
structure NearNPC where
  npc : NPC
  distance : ℝ

/-- A copied building record with `distance` (measured from the footprint
centre). -/
structure NearBuilding where
  building : Building
  distance : ℝ

/-- Ascending-by-distance comparison used to model
`sort((a, b) => a.distance - b.distance)`. -/
def distLE (a b : NearObj) : Prop := a.distance ≤ b.distance

/-- Ascending-by-distance comparison for NPC records. -/
def distLEN (a b : NearNPC) : Prop := a.distance ≤ b.distance

/-- Ascending-by-distance comparison for building records. -/
def distLEB (a b : NearBuilding) : Prop := a.distance ≤ b.distance

instance : IsTotal NearObj distLE := ⟨fun a b => le_total a.distance b.distance⟩

instance : IsTrans NearObj distLE := ⟨fun _ _ _ h h' => le_trans h h'⟩

instance : IsTotal NearNPC distLEN := ⟨fun a b => le_total a.distance b.distance⟩

instance : IsTrans NearNPC distLEN := ⟨fun _ _ _ h h' => le_trans h h'⟩

instance : IsTotal NearBuilding distLEB := ⟨fun a b => le_total a.distance b.distance⟩

instance : IsTrans NearBuilding distLEB := ⟨fun _ _ _ h h' => le_trans h h'⟩

/-- The 3-by-3 block of chunk coordinates scanned by `getObjectsNear`
(outer x, inner y). -/
def chunkBlock (cX cY : Int) : List (Int × Int) :=
  [cX - 1, cX, cX + 1].flatMap fun a => [cY - 1, cY, cY + 1].map fun b => (a, b)

/-- Candidate collection of `getObjectsNear`: only chunks already present
in the cache contribute; each object within the radius is copied and
augmented with its Euclidean distance. -/
noncomputable def collectNear (w : World) (x y radius : ℝ) : List NearObj :=
  (chunkBlock ⌊x / 512⌋ ⌊y / 512⌋).flatMap fun k =>
    match lookupChunk w.chunks k with
    | none => []
    | some c => c.objects.filterMap fun o =>
        let d := jsHypot (o.x - x) (o.y - y)
        if d ≤ radius then some ⟨o, d⟩ else none

/-- `getObjectsNear(x, y, radius)`: collect from the 3-by-3 chunk block,
then sort ascending by distance. -/
noncomputable def World.getObjectsNear (w : World) (x y radius : ℝ) : List NearObj :=
  List.insertionSort distLE (collectNear w x y radius)

/-- `getNPCsNear(x, y, radius)`: map-augment, filter by distance, sort. -/
noncomputable def World.getNPCsNear (w : World) (x y radius : ℝ) : List NearNPC :=
  List.insertionSort distLEN
    ((w.npcs.map fun n => ⟨n, jsHypot (n.x - x) (n.y - y)⟩).filter
      fun a => a.distance ≤ radius)

/-- `getBuildingsNear(x, y, radius)`: distance from the footprint centre. -/
noncomputable def World.getBuildingsNear (w : World) (x y radius : ℝ) :
    List NearBuilding :=
  List.insertionSort distLEB
    ((w.buildings.map fun b =>
      ⟨b, jsHypot (b.x + b.width / 2 - x) (b.y + b.height / 2 - y)⟩).filter
      fun a => a.distance ≤ radius)

/-- One tick of `updateNPC`. `r1`, `r2` stand for the two possible
`Math.random()` draws of the state-toggle branch; the timer countdown,
toggle, face-player override and guarded walking step follow the source
order exactly. -/
noncomputable def World.updateNPC (w : World) (npc : NPC)
    (dt px py r1 r2 : ℝ) : NPC :=
  let t1 := npc.stateTimer - dt
  let tog :=
    if t1 ≤ 0 then
      if npc.state = .idle then (NpcState.walking, r1 * Real.pi * 2, 2 + r2 * 3)
      else (NpcState.idle, npc.direction, 1 + r1 * 4)
    else (npc.state, npc.direction, t1)
  let distToPlayer := jsHypot (npc.x - px) (npc.y - py)
  let fp :=
    if distToPlayer < 100 then (NpcState.idle, jsAtan2 (py - npc.y) (px - npc.x))
    else (tog.1, tog.2.1)
  if fp.1 = .walking then
    let newX := npc.x + Real.cos fp.2 * 30 * dt
    let newY := npc.y + Real.sin fp.2 * 30 * dt
    if jsHypot (newX - npc.homeX) (newY - npc.homeY) < 150 ∧ w.isWalkable newX newY
    then { npc with x := newX, y := newY, direction := fp.2,
                    state := fp.1, stateTimer := tog.2.2 }
    else { npc with direction := jsAtan2 (npc.homeY - npc.y) (npc.homeX - npc.x),
                    state := fp.1, stateTimer := tog.2.2 }
  else { npc with direction := fp.2, state := fp.1, stateTimer := tog.2.2 }

/-- Folding a sequence of `updateNPC` ticks over one NPC; each entry is
`(dt, playerX, playerY, r1, r2)`. -/
noncomputable def updateNPCSeq (w : World) (npc : NPC) :
    List (ℝ × ℝ × ℝ × ℝ × ℝ) → NPC
  | [] => npc
  | (dt, px, py, r1, r2) :: rest =>
      updateNPCSeq w (w.updateNPC npc dt px py r1 r2) rest

/-- The retry loop of `spawnNPCs`: up to 10 attempts of jittering the
candidate position while it is not walkable. -/
noncomputable def spawnRetry (w : World) : Nat → ℝ → ℝ → SeededRandom →
    ℝ × ℝ × SeededRandom
  | 0, x, y, rng => (x, y, rng)
  | fuel + 1, x, y, rng =>
      if w.isWalkable x y then (x, y, rng)
      else
        spawnRetry w fuel (x + ((rng.next.1 : ℝ) - 0.5) * 100)
          (y + ((rng.next.2.next.1 : ℝ) - 0.5) * 100) rng.next.2.next.2

/-- The per-NPC body of the `spawnNPCs` loop: polar position around the
player, retry loop, and (if the final position is walkable) the NPC record
pushed with `homeX = x`, `homeY = y`. -/
noncomputable def spawnOne (w : World) (px py : ℝ) (now : Nat)
    (rng : SeededRandom) (ctr : Nat) : List NPC × SeededRandom × Nat :=
  let angle : ℝ := (rng.next.1 : ℝ) * Real.pi * 2
  let r1 := rng.next.2
  let dist : ℝ := 200 + (r1.next.1 : ℝ) * 800
  let r2 := r1.next.2
  let x0 := px + Real.cos angle * dist
  let y0 := py + Real.sin angle * dist
  let ret := spawnRetry w 10 x0 y0 r2
  let x := ret.1
  let y := ret.2.1
  let r3 := ret.2.2
  if w.isWalkable x y then
    let ntype := [NpcType.villager, NpcType.merchant, NpcType.elder,
      NpcType.guard, NpcType.wanderer].getD (⌊r3.next.1 * 5⌋).toNat
      NpcType.villager
    let r4 := r3.next.2
    ([{ id := (now, ctr + 1), type := ntype, x := x, y := y,
        homeX := x, homeY := y, direction := (r4.next.1 : ℝ) * Real.pi * 2,
        state := .idle, stateTimer := (r4.next.2.next.1 : ℝ) * 5,
        interactable := true }],
      r4.next.2.next.2, ctr + 1)
  else ([], r3, ctr)

/-- The 20-iteration loop of `spawnNPCs`. -/
noncomputable def spawnLoop (w : World) (px py : ℝ) (now : Nat) :
    Nat → SeededRandom → Nat → List NPC × SeededRandom × Nat
  | 0, rng, ctr => ([], rng, ctr)
  | k + 1, rng, ctr =>
      let s := spawnOne w px py now rng ctr
      let r := spawnLoop w px py now k s.2.1 s.2.2
      (s.1 ++ r.1, r.2.1, r.2.2)

/-- `spawnNPCs(playerX, playerY)`: 20 spawn attempts on a fresh
`SeededRandom(seed + 999)`, appending the created NPCs to the world. -/
noncomputable def World.spawnNPCs (w : World) (px py : ℝ) (now ctr : Nat) :
    World × Nat :=
  let s := spawnLoop w px py now 20 (SeededRandom.ofSeed (w.seed + 999)) ctr
  ({ w with npcs := w.npcs ++ s.1 }, s.2.2)

lemma next_fst (r : SeededRandom) :
    r.next.1 = (((16807 * r.state).tmod 2147483647 : Int) : ℚ) / 2147483647 := rfl

lemma nextInt_fst (r : SeededRandom) (lo hi : Int) :
    (r.nextInt lo hi).1 = ⌊r.next.1 * ((hi : ℚ) - (lo : ℚ) + 1)⌋ + lo := rfl

lemma iter_state_nonneg (r : SeededRandom) (h : 0 ≤ r.state) (n : Nat) :
    0 ≤ (r.iter n).state := by
  induction n generalizing r with
  | zero => exact h
  | succ k ih =>
      exact ih _ (Int.tmod_nonneg _ (by positivity))

lemma iter_succ_back (r : SeededRandom) (n : Nat) :
    r.iter (n + 1) = (r.iter n).next.2 := by
  induction n generalizing r with
  | zero => rfl
  | succ k ih => exact ih r.next.2

lemma next_val_bounds (r : SeededRandom) (h : 0 ≤ r.state) :
    0 ≤ r.next.1 ∧ r.next.1 < 1 := by
  have h1 : (0 : Int) ≤ (16807 * r.state).tmod 2147483647 :=
    Int.tmod_nonneg _ (by positivity)
  have h2 : (16807 * r.state).tmod 2147483647 < 2147483647 :=
    Int.tmod_lt_of_pos _ (by norm_num)
  rw [next_fst]
  constructor
  · exact div_nonneg (by exact_mod_cast h1) (by norm_num)
  · rw [div_lt_one (by norm_num)]
    exact_mod_cast h2

/-- C2 (amended): for every non-negative constructor seed, at every point
of the stream `next()` returns a rational in [0, 1) and the state advances
by `state = (16807 * state) mod (2^31 - 1)` (true mathematical mod, since
the JS remainder agrees with it on non-negative operands), and
`nextInt(lo, hi)` with `lo ≤ hi` returns an integer in `[lo, hi]`.
For negative seeds this fails (see the counterexample). -/
theorem lcg_stream_contract (seed : Int) (h : 0 ≤ seed) (n : Nat)
    (lo hi : Int) (hlh : lo ≤ hi) :
    (0 ≤ lcgValAt seed n ∧ lcgValAt seed n < 1) ∧
    lcgStateAt seed (n + 1) = (16807 * lcgStateAt seed n) % 2147483647 ∧
    (lo ≤ lcgNextIntAt seed n lo hi ∧ lcgNextIntAt seed n lo hi ≤ hi) := by
  have hst : 0 ≤ ((SeededRandom.ofSeed seed).iter n).state :=
    iter_state_nonneg _ h n
  have hv := next_val_bounds _ hst
  refine ⟨hv, ?_, ?_⟩
  · show ((SeededRandom.ofSeed seed).iter (n + 1)).state = _
    rw [iter_succ_back]
    exact Int.tmod_eq_emod (by positivity) (by norm_num)
  · unfold lcgNextIntAt
    rw [nextInt_fst]
    set v := ((SeededRandom.ofSeed seed).iter n).next.1 with hveq
    have hv0 : 0 ≤ v := hv.1
    have hv1 : v < 1 := hv.2
    have hL : (1 : ℚ) ≤ (hi : ℚ) - (lo : ℚ) + 1 := by
      have : (lo : ℚ) ≤ (hi : ℚ) := by exact_mod_cast hlh
      linarith
    have hfl0 : (0 : Int) ≤ ⌊v * ((hi : ℚ) - (lo : ℚ) + 1)⌋ := by
      apply Int.floor_nonneg.2
      positivity
    have hflhi : ⌊v * ((hi : ℚ) - (lo : ℚ) + 1)⌋ < hi - lo + 1 := by
      rw [Int.floor_lt]
      calc v * ((hi : ℚ) - (lo : ℚ) + 1) < 1 * ((hi : ℚ) - (lo : ℚ) + 1) :=
            mul_lt_mul_of_pos_right hv1 (by linarith)
        _ = ((hi - lo + 1 : Int) : ℚ) := by push_cast; ring
    omega

/-- Witness for C2: seed 12345, first draw, nextInt bounds 2..4. -/
theorem lcg_stream_contract_witness :
    (0 ≤ lcgValAt 12345 0 ∧ lcgValAt 12345 0 < 1) ∧
    lcgStateAt 12345 1 = (16807 * lcgStateAt 12345 0) % 2147483647 ∧
    (2 ≤ lcgNextIntAt 12345 0 2 4 ∧ lcgNextIntAt 12345 0 2 4 ≤ 4) :=
  lcg_stream_contract 12345 (by norm_num) 0 2 4 (by norm_num)

/-- Counterexample for C2 as stated: the chunk-local seed
`12345 + (-13)*1000 + 0 = -655` (the generator's own seed derivation at
chunk (-13, 0) of world seed 12345) makes the very first `next()` return a
negative value, outside [0, 1): the JS `%` keeps the dividend's sign. -/
theorem lcg_negative_seed_cx :
    chunkSeed 12345 (-13) 0 = -655 ∧
    ¬ (0 ≤ lcgValAt (chunkSeed 12345 (-13) 0) 0) := by
  have hs : chunkSeed 12345 (-13) 0 = -655 := by norm_num [chunkSeed]
  refine ⟨hs, ?_⟩
  rw [hs]
  have ht : ((16807 : Int) * (-655)).tmod 2147483647 = -11008585 := by decide
  have : lcgValAt (-655) 0 = ((-11008585 : Int) : ℚ) / 2147483647 := by
    show (SeededRandom.ofSeed (-655)).next.1 = _
    rw [next_fst]
    norm_num [SeededRandom.ofSeed] at ht ⊢
    rw [ht]
    norm_num
  rw [this]
  norm_num

lemma lookup_setChunk_self (m : List ((Int × Int) × Chunk)) (k : Int × Int)
    (c : Chunk) : lookupChunk (setChunk m k c) k = some c := by
  induction m with
  | nil => simp [setChunk, lookupChunk]
  | cons hd tl ih =>
      obtain ⟨k', c'⟩ := hd
      by_cases h : k' = k
      · simp [setChunk, h, lookupChunk]
      · simp [setChunk, h, lookupChunk, ih]

lemma lookup_setChunk_ne (m : List ((Int × Int) × Chunk)) (k k' : Int × Int)
    (c : Chunk) (h : k' ≠ k) :
    lookupChunk (setChunk m k c) k' = lookupChunk m k' := by
  induction m with
  | nil => simp [setChunk, lookupChunk, Ne.symm h]
  | cons hd tl ih =>
      obtain ⟨k'', c''⟩ := hd
      by_cases h2 : k'' = k
      · subst h2
        simp [setChunk, lookupChunk, Ne.symm h, h]
      · by_cases h3 : k'' = k'
        · subst h3
          simp [setChunk, h2, lookupChunk, h]
        · simp [setChunk, h2, lookupChunk, h3, ih]

lemma generateChunk_chunks (w : World) (cx cy : Int) (now ctr : Nat) :
    (w.generateChunk cx cy now ctr).2.1.chunks =
      setChunk w.chunks (cx, cy) (w.generateChunk cx cy now ctr).1 := by
  unfold World.generateChunk
  rcases hE : genObjectsLoop (w.chunkTiles cx cy) cx cy now tileOrder
      (SeededRandom.ofSeed (chunkSeed w.seed cx cy)) ctr with ⟨objs, bldgs, r', c'⟩
  simp [hE]

/-- C6: `getChunk` is idempotent. After any first call at (cx, cy), a
second call (with any id-generation state) returns exactly the cached
chunk (hence the same tile grid and object list), leaves the world
untouched and leaves the id counter untouched, so `generateChunk` (which
always installs a cache entry and advances nothing else observable here)
runs at most once per coordinate; moreover the first call changes no cache
entry other than (cx, cy), so no chunk is ever regenerated or evicted. -/
theorem getChunk_idempotent (w : World) (cx cy : Int) (n1 c1 n2 c2 : Nat) :
    ((w.getChunk cx cy n1 c1).2.1.getChunk cx cy n2 c2 =
      ((w.getChunk cx cy n1 c1).1, (w.getChunk cx cy n1 c1).2.1, c2)) ∧
    (∀ k, lookupChunk (w.getChunk cx cy n1 c1).2.1.chunks k =
      (if k = (cx, cy) then some (w.getChunk cx cy n1 c1).1
       else lookupChunk w.chunks k)) := by
  cases h : lookupChunk w.chunks (cx, cy) with
  | some c =>
      constructor
      · simp [World.getChunk, h]
      · intro k
        by_cases hk : k = (cx, cy)
        · subst hk; simp [World.getChunk, h]
        · simp [World.getChunk, h, hk]
  | none =>
      rcases hG : w.generateChunk cx cy n1 c1 with ⟨ch, w', ctr'⟩
      have hset : w'.chunks = setChunk w.chunks (cx, cy) ch := by
        have := generateChunk_chunks w cx cy n1 c1
        rw [hG] at this
        exact this
      have hfound : lookupChunk w'.chunks (cx, cy) = some ch := by
        rw [hset]; exact lookup_setChunk_self _ _ _
      constructor
      · simp only [World.getChunk, h, hG]
        simp only [hfound, Option.getD_some, World.getChunk]
      · intro k
        simp only [World.getChunk, h, hG]
        by_cases hk : k = (cx, cy)
        · subst hk; simp [hfound]
        · simp only [hfound, Option.getD_some, if_neg hk, hset]
          exact lookup_setChunk_ne _ _ _ _ hk

/-- Identity erasure: replaces the generated id by a fixed dummy, keeping
type, subtype, position, harvestable flag, resource kind and yield. -/
def eraseObjId (o : Obj) : Obj :=
  { o with id := (0, 0) }

lemma treeStep_shape (b : Biome) (roll : ℚ) (wx wy : ℝ) (t1 t2 : Nat)
    (rng : SeededRandom) (c1 c2 : Nat) :
    (treeStep b roll wx wy t1 rng c1).1.map eraseObjId =
      (treeStep b roll wx wy t2 rng c2).1.map eraseObjId ∧
    (treeStep b roll wx wy t1 rng c1).2.1 =
      (treeStep b roll wx wy t2 rng c2).2.1 := by
  unfold treeStep
  split_ifs <;> simp [eraseObjId]

lemma rockStep_shape (b : Biome) (roll : ℚ) (wx wy : ℝ) (t1 t2 : Nat)
    (rng : SeededRandom) (c1 c2 : Nat) :
    (rockStep b roll wx wy t1 rng c1).1.map eraseObjId =
      (rockStep b roll wx wy t2 rng c2).1.map eraseObjId ∧
    (rockStep b roll wx wy t1 rng c1).2.1 =
      (rockStep b roll wx wy t2 rng c2).2.1 := by
  unfold rockStep
  split_ifs <;> simp [eraseObjId]

lemma flowerStep_shape (b : Biome) (roll : ℚ) (wx wy : ℝ) (t1 t2 : Nat)
    (rng : SeededRandom) (c1 c2 : Nat) :
    (flowerStep b roll wx wy t1 rng c1).1.map eraseObjId =
      (flowerStep b roll wx wy t2 rng c2).1.map eraseObjId ∧
    (flowerStep b roll wx wy t1 rng c1).2.1 =
      (flowerStep b roll wx wy t2 rng c2).2.1 := by
  unfold flowerStep
  split_ifs <;> simp [eraseObjId]

lemma mushroomStep_shape (b : Biome) (wx wy : ℝ) (t1 t2 : Nat)
    (rng : SeededRandom) (c1 c2 : Nat) :
    (mushroomStep b wx wy t1 rng c1).1.map eraseObjId =
      (mushroomStep b wx wy t2 rng c2).1.map eraseObjId ∧
    (mushroomStep b wx wy t1 rng c1).2.1 =
      (mushroomStep b wx wy t2 rng c2).2.1 := by
  unfold mushroomStep
  split_ifs <;> try simp [eraseObjId]
  all_goals split_ifs <;> simp [eraseObjId]

lemma bushStep_shape (b : Biome) (wx wy : ℝ) (t1 t2 : Nat)
    (rng : SeededRandom) (c1 c2 : Nat) :
    (bushStep b wx wy t1 rng c1).1.map eraseObjId =
      (bushStep b wx wy t2 rng c2).1.map eraseObjId ∧
    (bushStep b wx wy t1 rng c1).2.1 =
      (bushStep b wx wy t2 rng c2).2.1 := by
  unfold bushStep
  split_ifs <;> try simp [eraseObjId]
  all_goals split_ifs <;> simp [eraseObjId]

lemma cactusStep_shape (b : Biome) (wx wy : ℝ) (t1 t2 : Nat)
    (rng : SeededRandom) (c1 c2 : Nat) :
    (cactusStep b wx wy t1 rng c1).1.map eraseObjId =
      (cactusStep b wx wy t2 rng c2).1.map eraseObjId ∧
    (cactusStep b wx wy t1 rng c1).2.1 =
      (cactusStep b wx wy t2 rng c2).2.1 := by
  unfold cactusStep
  split_ifs <;> try simp [eraseObjId]
  all_goals split_ifs <;> simp [eraseObjId]

lemma buildingStep_state (b : Biome) (wx wy : ℝ) (t1 t2 : Nat)
    (rng : SeededRandom) (c1 c2 : Nat) :
    (buildingStep b wx wy t1 rng c1).2.1 =
      (buildingStep b wx wy t2 rng c2).2.1 := by
  unfold buildingStep generateBuilding
  split_ifs <;> try simp
  all_goals split_ifs <;> simp

lemma genTileObjects_shape (b : Biome) (wx wy : ℝ) (t1 t2 : Nat)
    (rng : SeededRandom) (c1 c2 : Nat) :
    (genTileObjects b wx wy t1 rng c1).1.map eraseObjId =
      (genTileObjects b wx wy t2 rng c2).1.map eraseObjId ∧
    (genTileObjects b wx wy t1 rng c1).2.2.1 =
      (genTileObjects b wx wy t2 rng c2).2.2.1 := by
  unfold genTileObjects
  split_ifs with hb
  · simp
  simp only []
  obtain ⟨hTo, hTr⟩ := treeStep_shape b rng.next.1 wx wy t1 t2 rng.next.2 c1 c2
  rw [hTr]
  obtain ⟨hRo, hRr⟩ := rockStep_shape b rng.next.1 wx wy t1 t2
    (treeStep b rng.next.1 wx wy t2 rng.next.2 c2).2.1
    (treeStep b rng.next.1 wx wy t1 rng.next.2 c1).2.2
    (treeStep b rng.next.1 wx wy t2 rng.next.2 c2).2.2
  rw [hRr]
  obtain ⟨hFo, hFr⟩ := flowerStep_shape b rng.next.1 wx wy t1 t2
    (rockStep b rng.next.1 wx wy t2
      (treeStep b rng.next.1 wx wy t2 rng.next.2 c2).2.1
      (treeStep b rng.next.1 wx wy t2 rng.next.2 c2).2.2).2.1
    (rockStep b rng.next.1 wx wy t1
      (treeStep b rng.next.1 wx wy t2 rng.next.2 c2).2.1
      (treeStep b rng.next.1 wx wy t1 rng.next.2 c1).2.2).2.2
    (rockStep b rng.next.1 wx wy t2
      (treeStep b rng.next.1 wx wy t2 rng.next.2 c2).2.1
      (treeStep b rng.next.1 wx wy t2 rng.next.2 c2).2.2).2.2
  rw [hFr]
  set F1 := flowerStep b rng.next.1 wx wy t1
    (rockStep b rng.next.1 wx wy t2
      (treeStep b rng.next.1 wx wy t2 rng.next.2 c2).2.1
      (treeStep b rng.next.1 wx wy t2 rng.next.2 c2).2.2).2.1
    (rockStep b rng.next.1 wx wy t1
      (treeStep b rng.next.1 wx wy t2 rng.next.2 c2).2.1
      (treeStep b rng.next.1 wx wy t1 rng.next.2 c1).2.2).2.2 with hF1
  set F2 := flowerStep b rng.next.1 wx wy t2
    (rockStep b rng.next.1 wx wy t2
      (treeStep b rng.next.1 wx wy t2 rng.next.2 c2).2.1
      (treeStep b rng.next.1 wx wy t2 rng.next.2 c2).2.2).2.1
    (rockStep b rng.next.1 wx wy t2
      (treeStep b rng.next.1 wx wy t2 rng.next.2 c2).2.1
      (treeStep b rng.next.1 wx wy t2 rng.next.2 c2).2.2).2.2 with hF2
  obtain ⟨hMo, hMr⟩ := mushroomStep_shape b wx wy t1 t2 F2.2.1 F1.2.2 F2.2.2
  rw [hMr]
  set M1 := mushroomStep b wx wy t1 F2.2.1 F1.2.2 with hM1
  set M2 := mushroomStep b wx wy t2 F2.2.1 F2.2.2 with hM2
  obtain ⟨hBo, hBr⟩ := bushStep_shape b wx wy t1 t2 M2.2.1 M1.2.2 M2.2.2
  rw [hBr]
  set B1 := bushStep b wx wy t1 M2.2.1 M1.2.2 with hB1
  set B2 := bushStep b wx wy t2 M2.2.1 M2.2.2 with hB2
  obtain ⟨hCo, hCr⟩ := cactusStep_shape b wx wy t1 t2 B2.2.1 B1.2.2 B2.2.2
  rw [hCr]
  set C1 := cactusStep b wx wy t1 B2.2.1 B1.2.2 with hC1
  set C2 := cactusStep b wx wy t2 B2.2.1 B2.2.2 with hC2
  have hGr := buildingStep_state b wx wy t1 t2 C2.2.1 C1.2.2 C2.2.2
  rw [hGr]
  simp [List.map_append, hTo, hRo, hFo, hMo, hBo, hCo]

lemma genObjectsLoop_shape (tiles : List (List Tile)) (cx cy : Int)
    (t1 t2 : Nat) (pairs : List (Nat × Nat)) (rng : SeededRandom)
    (c1 c2 : Nat) :
    (genObjectsLoop tiles cx cy t1 pairs rng c1).1.map eraseObjId =
      (genObjectsLoop tiles cx cy t2 pairs rng c2).1.map eraseObjId ∧
    (genObjectsLoop tiles cx cy t1 pairs rng c1).2.2.1 =
      (genObjectsLoop tiles cx cy t2 pairs rng c2).2.2.1 := by
  induction pairs generalizing rng c1 c2 with
  | nil => simp [genObjectsLoop]
  | cons hd rest ih =>
      obtain ⟨ty, tx⟩ := hd
      simp only [genObjectsLoop]
      obtain ⟨hO, hR⟩ := genTileObjects_shape
        (((tiles.getD ty []).getD tx { color := "", biome := .plains }).biome)
        ((cx : ℝ) * 512 + (tx : ℝ) * 32 + 16)
        ((cy : ℝ) * 512 + (ty : ℝ) * 32 + 16) t1 t2 rng c1 c2
      rw [hR]
      obtain ⟨ihO, ihR⟩ := ih
        (genTileObjects
          (((tiles.getD ty []).getD tx { color := "", biome := .plains }).biome)
          ((cx : ℝ) * 512 + (tx : ℝ) * 32 + 16)
          ((cy : ℝ) * 512 + (ty : ℝ) * 32 + 16) t2 rng c2).2.2.1
        (genTileObjects
          (((tiles.getD ty []).getD tx { color := "", biome := .plains }).biome)
          ((cx : ℝ) * 512 + (tx : ℝ) * 32 + 16)
          ((cy : ℝ) * 512 + (ty : ℝ) * 32 + 16) t1 rng c1).2.2.2
        (genTileObjects
          (((tiles.getD ty []).getD tx { color := "", biome := .plains }).biome)
          ((cx : ℝ) * 512 + (tx : ℝ) * 32 + 16)
          ((cy : ℝ) * 512 + (ty : ℝ) * 32 + 16) t2 rng c2).2.2.2
      refine ⟨?_, ihR⟩
      rw [List.map_append, List.map_append, hO, ihO]

lemma generateChunk_tiles (w : World) (cx cy : Int) (now ctr : Nat) :
    (w.generateChunk cx cy now ctr).1.tiles = w.chunkTiles cx cy := rfl

lemma generateChunk_objects (w : World) (cx cy : Int) (now ctr : Nat) :
    (w.generateChunk cx cy now ctr).1.objects =
      (genObjectsLoop (w.chunkTiles cx cy) cx cy now tileOrder
        (SeededRandom.ofSeed (chunkSeed w.seed cx cy)) ctr).1 := rfl

/-- C1: chunk content is a pure function of (seed, chunk coordinate).
Generating the chunk at (cx, cy) from a world freshly constructed with a
given seed yields the same tile grid (colors and biomes) and, after
erasing the generated id fields, the same object list (types, subtypes,
positions, harvestable flags, resource kinds and yield amounts, in the
same order), no matter what the state of the global id generator
(Date.now() value and counter) is — this covers repeated calls and
process restarts, where only the id state differs. -/
theorem generateChunk_deterministic (seed cx cy : Int) (t1 c1 t2 c2 : Nat) :
    ((World.ofSeed seed).generateChunk cx cy t1 c1).1.tiles =
      ((World.ofSeed seed).generateChunk cx cy t2 c2).1.tiles ∧
    ((World.ofSeed seed).generateChunk cx cy t1 c1).1.objects.map eraseObjId =
      ((World.ofSeed seed).generateChunk cx cy t2 c2).1.objects.map eraseObjId := by
  constructor
  · rw [generateChunk_tiles, generateChunk_tiles]
  · rw [generateChunk_objects, generateChunk_objects]
    exact (genObjectsLoop_shape ((World.ofSeed seed).chunkTiles cx cy) cx cy
      t1 t2 tileOrder
      (SeededRandom.ofSeed (chunkSeed (World.ofSeed seed).seed cx cy)) c1 c2).1

lemma treeStep_mem_type (b : Biome) (roll : ℚ) (wx wy : ℝ) (now : Nat)
    (rng : SeededRandom) (ctr : Nat) :
    ∀ o ∈ (treeStep b roll wx wy now rng ctr).1, o.type = .tree := by
  unfold treeStep; split_ifs <;> simp

lemma rockStep_mem_type (b : Biome) (roll : ℚ) (wx wy : ℝ) (now : Nat)
    (rng : SeededRandom) (ctr : Nat) :
    ∀ o ∈ (rockStep b roll wx wy now rng ctr).1, o.type = .rock := by
  unfold rockStep; split_ifs <;> simp

lemma flowerStep_mem_type (b : Biome) (roll : ℚ) (wx wy : ℝ) (now : Nat)
    (rng : SeededRandom) (ctr : Nat) :
    ∀ o ∈ (flowerStep b roll wx wy now rng ctr).1, o.type = .flower := by
  unfold flowerStep; split_ifs <;> simp

lemma mushroomStep_mem_type (b : Biome) (wx wy : ℝ) (now : Nat)
    (rng : SeededRandom) (ctr : Nat) :
    ∀ o ∈ (mushroomStep b wx wy now rng ctr).1, o.type = .mushroom := by
  unfold mushroomStep
  split_ifs <;> simp
  all_goals (split_ifs <;> simp)

lemma bushStep_mem_type (b : Biome) (wx wy : ℝ) (now : Nat)
    (rng : SeededRandom) (ctr : Nat) :
    ∀ o ∈ (bushStep b wx wy now rng ctr).1, o.type = .bush := by
  unfold bushStep
  split_ifs <;> simp
  all_goals (split_ifs <;> simp)

lemma cactusStep_mem_type (b : Biome) (wx wy : ℝ) (now : Nat)
    (rng : SeededRandom) (ctr : Nat) :
    ∀ o ∈ (cactusStep b wx wy now rng ctr).1, o.type = .cactus := by
  unfold cactusStep
  split_ifs <;> simp
  all_goals (split_ifs <;> simp)

lemma flowerStep_mem_guard (b : Biome) (roll : ℚ) (wx wy : ℝ) (now : Nat)
    (rng : SeededRandom) (ctr : Nat) :
    ∀ o ∈ (flowerStep b roll wx wy now rng ctr).1,
      b = .plains ∧ roll < FLOWER_DENSITY := by
  unfold flowerStep
  split_ifs with h
  · intro _ _; exact h
  · simp

lemma treeStep_fires (b : Biome) (roll : ℚ) (wx wy : ℝ) (now : Nat)
    (rng : SeededRandom) (ctr : Nat)
    (h : (b = .forest ∨ b = .plains) ∧ roll < TREE_DENSITY) :
    ∃ o ∈ (treeStep b roll wx wy now rng ctr).1, o.type = .tree := by
  unfold treeStep
  rw [if_pos h]
  simp

lemma plains_flower_implies_tree (wx wy : ℝ) (now : Nat) (rng : SeededRandom)
    (ctr : Nat) :
    (∃ o ∈ (genTileObjects .plains wx wy now rng ctr).1, o.type = .flower) →
    ∃ o ∈ (genTileObjects .plains wx wy now rng ctr).1, o.type = .tree := by
  unfold genTileObjects
  rw [if_neg (by simp)]
  simp only []
  rintro ⟨o, ho, hot⟩
  simp only [List.mem_append] at ho
  rcases ho with (((((ho | ho) | ho) | ho) | ho) | ho)
  · rw [treeStep_mem_type _ _ _ _ _ _ _ o ho] at hot
    exact ObjType.noConfusion hot
  · rw [rockStep_mem_type _ _ _ _ _ _ _ o ho] at hot
    exact ObjType.noConfusion hot
  · obtain ⟨-, h5⟩ := flowerStep_mem_guard _ _ _ _ _ _ _ o ho
    have h8 : rng.next.1 < TREE_DENSITY :=
      lt_trans h5 (by norm_num [FLOWER_DENSITY, TREE_DENSITY])
    obtain ⟨o', ho', hto'⟩ := treeStep_fires Biome.plains rng.next.1 wx wy now
      rng.next.2 ctr ⟨Or.inr rfl, h8⟩
    exact ⟨o', List.mem_append_left _ (List.mem_append_left _
      (List.mem_append_left _ (List.mem_append_left _
        (List.mem_append_left _ ho')))), hto'⟩
  · rw [mushroomStep_mem_type _ _ _ _ _ _ o ho] at hot
    exact ObjType.noConfusion hot
  · rw [bushStep_mem_type _ _ _ _ _ _ o ho] at hot
    exact ObjType.noConfusion hot
  · rw [cactusStep_mem_type _ _ _ _ _ _ o ho] at hot
    exact ObjType.noConfusion hot

lemma next_eval (seed st st' : Int) (h : (16807 * st).tmod 2147483647 = st') :
    SeededRandom.next ⟨seed, st⟩ = (((st' : Int) : ℚ) / 2147483647, ⟨seed, st'⟩) := by
  simp [SeededRandom.next, h]

lemma rockStep_plains (roll : ℚ) (wx wy : ℝ) (now : Nat) (rng : SeededRandom)
    (ctr : Nat) : rockStep .plains roll wx wy now rng ctr = ([], rng, ctr) := by
  unfold rockStep
  rw [if_neg]
  rintro ⟨h | h, -⟩ <;> exact Biome.noConfusion h

lemma mushroomStep_plains (wx wy : ℝ) (now : Nat) (rng : SeededRandom)
    (ctr : Nat) : mushroomStep .plains wx wy now rng ctr = ([], rng, ctr) := by
  unfold mushroomStep
  rw [if_neg]
  intro h
  exact Biome.noConfusion h

lemma cactusStep_plains (wx wy : ℝ) (now : Nat) (rng : SeededRandom)
    (ctr : Nat) : cactusStep .plains wx wy now rng ctr = ([], rng, ctr) := by
  unfold cactusStep
  rw [if_neg]
  intro h
  exact Biome.noConfusion h

lemma genTile_seed1 :
    (genTileObjects .plains 0 0 0 (SeededRandom.ofSeed 1) 0).1.map
      (fun o => o.type) = [.tree, .flower] := by
  have e1 := next_eval 1 1 16807 (by decide)
  have e2 := next_eval 1 16807 282475249 (by decide)
  have e3 := next_eval 1 282475249 1622650073 (by decide)
  have e4 := next_eval 1 1622650073 984943658 (by decide)
  have e5 := next_eval 1 984943658 1144108930 (by decide)
  have e6 := next_eval 1 1144108930 470211272 (by decide)
  have e7 := next_eval 1 470211272 101027544 (by decide)
  have hT1 : (treeStep .plains (((16807 : Int) : ℚ) / 2147483647) 0 0 0
      ⟨1, 16807⟩ 0).1.map (fun o => o.type) = [.tree] := by
    unfold treeStep
    rw [if_pos ⟨Or.inr rfl, by norm_num [TREE_DENSITY]⟩]
    simp
  have hT2 : (treeStep .plains (((16807 : Int) : ℚ) / 2147483647) 0 0 0
      ⟨1, 16807⟩ 0).2 = (⟨1, 984943658⟩, 1) := by
    unfold treeStep
    rw [if_pos ⟨Or.inr rfl, by norm_num [TREE_DENSITY]⟩]
    simp only [SeededRandom.nextInt, e2, e3, e4]
  have hF1 : (flowerStep .plains (((16807 : Int) : ℚ) / 2147483647) 0 0 0
      ⟨1, 984943658⟩ 1).1.map (fun o => o.type) = [.flower] := by
    unfold flowerStep
    rw [if_pos ⟨rfl, by norm_num [FLOWER_DENSITY]⟩]
    simp
  have hF2 : (flowerStep .plains (((16807 : Int) : ℚ) / 2147483647) 0 0 0
      ⟨1, 984943658⟩ 1).2 = (⟨1, 470211272⟩, 2) := by
    unfold flowerStep
    rw [if_pos ⟨rfl, by norm_num [FLOWER_DENSITY]⟩]
    simp only [e5, e6]
  have hBu : bushStep .plains 0 0 0 ⟨1, 470211272⟩ 2 = ([], ⟨1, 101027544⟩, 2) := by
    unfold bushStep
    rw [if_pos (Or.inr rfl)]
    simp only [e7]
    rw [if_neg (by norm_num)]
  unfold genTileObjects
  rw [if_neg (by simp)]
  simp only [show SeededRandom.ofSeed 1 = (⟨1, 1⟩ : SeededRandom) from rfl, e1]
  simp only [rockStep_plains, mushroomStep_plains, cactusStep_plains, hT2, hF2, hBu]
  simp only [List.map_append, hT1, hF1]
  simp

/-- Counterexample for C7 as stated: the flower check does not have its
own draw — it re-tests the single per-tile roll already tested by the
tree check. Were the two checks backed by independent draws of the
uniform stream, a plains tile spawning a flower but no tree would be
possible; in fact it is impossible for every rng state: on a plains tile
a flower is spawned only when the shared roll is below FLOWER_DENSITY =
0.05, which is below TREE_DENSITY = 0.08, so the tree check fires too. -/
theorem tile_checks_cx :
    ¬ ∃ (wx wy : ℝ) (now : Nat) (rng : SeededRandom) (ctr : Nat),
      (∃ o ∈ (genTileObjects .plains wx wy now rng ctr).1, o.type = .flower) ∧
      ¬ ∃ o ∈ (genTileObjects .plains wx wy now rng ctr).1, o.type = .tree := by
  rintro ⟨wx, wy, now, rng, ctr, hf, ht⟩
  exact ht (plains_flower_implies_tree wx wy now rng ctr hf)

/-- C7 (amended): the tree, rock and flower checks all test the single
per-tile roll drawn once at the start of the tile, while the mushroom,
bush, cactus and building checks each use their own fresh draw;
consequently on a plains tile a flower can only spawn together with a
tree, and a tile may still spawn more than one object type (the layering
is real: with chunk-stream state 1, a plains tile spawns both a tree and
a flower). -/
theorem tile_checks_shared_roll :
    (∀ (wx wy : ℝ) (now : Nat) (rng : SeededRandom) (ctr : Nat),
      (∃ o ∈ (genTileObjects .plains wx wy now rng ctr).1, o.type = .flower) →
      ∃ o ∈ (genTileObjects .plains wx wy now rng ctr).1, o.type = .tree) ∧
    ((genTileObjects .plains 0 0 0 (SeededRandom.ofSeed 1) 0).1.map
      (fun o => o.type) = [.tree, .flower]) :=
  ⟨plains_flower_implies_tree, genTile_seed1⟩

/-- Witness for C7: at chunk-stream state 1 on a plains tile the flower
hypothesis holds concretely and the theorem produces the tree. -/
theorem tile_checks_shared_roll_witness :
    ∃ o ∈ (genTileObjects .plains 0 0 0 (SeededRandom.ofSeed 1) 0).1,
      o.type = .tree := by
  apply tile_checks_shared_roll.1 0 0 0 (SeededRandom.ofSeed 1) 0
  have h : ObjType.flower ∈ (genTileObjects .plains 0 0 0
      (SeededRandom.ofSeed 1) 0).1.map (fun o => o.type) := by
    rw [tile_checks_shared_roll.2]
    simp
  obtain ⟨o, ho, hto⟩ := List.mem_map.1 h
  exact ⟨o, ho, hto⟩

lemma mem_collectNear_iff (w : World) (x y r : ℝ) (a : NearObj) :
    a ∈ collectNear w x y r ↔
      ∃ k ∈ chunkBlock ⌊x / 512⌋ ⌊y / 512⌋, ∃ c, lookupChunk w.chunks k = some c ∧
        ∃ o ∈ c.objects, a = ⟨o, jsHypot (o.x - x) (o.y - y)⟩ ∧
          jsHypot (o.x - x) (o.y - y) ≤ r := by
  unfold collectNear
  rw [List.mem_flatMap]
  constructor
  · rintro ⟨k, hk, ha⟩
    refine ⟨k, hk, ?_⟩
    cases hL : lookupChunk w.chunks k with
    | none => rw [hL] at ha; simp at ha
    | some c =>
        rw [hL] at ha
        rw [List.mem_filterMap] at ha
        obtain ⟨o, ho, hsome⟩ := ha
        simp only [] at hsome
        by_cases hd : jsHypot (o.x - x) (o.y - y) ≤ r
        · rw [if_pos hd] at hsome
          exact ⟨c, rfl, o, ho, (Option.some_injective _ hsome).symm, hd⟩
        · rw [if_neg hd] at hsome
          exact Option.noConfusion hsome
  · rintro ⟨k, hk, c, hL, o, ho, ha, hd⟩
    refine ⟨k, hk, ?_⟩
    rw [hL]
    rw [List.mem_filterMap]
    refine ⟨o, ho, ?_⟩
    simp only []
    rw [if_pos hd, ha]

lemma mem_npcsNear_iff (w : World) (x y r : ℝ) (a : NearNPC) :
    a ∈ ((w.npcs.map fun n =>
        (⟨n, jsHypot (n.x - x) (n.y - y)⟩ : NearNPC)).filter
      fun b => b.distance ≤ r) ↔
      ∃ n ∈ w.npcs, a = ⟨n, jsHypot (n.x - x) (n.y - y)⟩ ∧
        jsHypot (n.x - x) (n.y - y) ≤ r := by
  rw [List.mem_filter]
  constructor
  · rintro ⟨hmem, hd⟩
    rw [List.mem_map] at hmem
    obtain ⟨n, hn, ha⟩ := hmem
    refine ⟨n, hn, ha.symm, ?_⟩
    have hle := of_decide_eq_true hd
    rw [← ha] at hle
    exact hle
  · rintro ⟨n, hn, ha, hd⟩
    subst ha
    exact ⟨List.mem_map.2 ⟨n, hn, rfl⟩, decide_eq_true hd⟩

lemma mem_buildingsNear_iff (w : World) (x y r : ℝ) (a : NearBuilding) :
    a ∈ ((w.buildings.map fun b =>
        (⟨b, jsHypot (b.x + b.width / 2 - x) (b.y + b.height / 2 - y)⟩ :
          NearBuilding)).filter fun b => b.distance ≤ r) ↔
      ∃ b ∈ w.buildings,
        a = ⟨b, jsHypot (b.x + b.width / 2 - x) (b.y + b.height / 2 - y)⟩ ∧
        jsHypot (b.x + b.width / 2 - x) (b.y + b.height / 2 - y) ≤ r := by
  rw [List.mem_filter]
  constructor
  · rintro ⟨hmem, hd⟩
    rw [List.mem_map] at hmem
    obtain ⟨b, hb, ha⟩ := hmem
    refine ⟨b, hb, ha.symm, ?_⟩
    have hle := of_decide_eq_true hd
    rw [← ha] at hle
    exact hle
  · rintro ⟨b, hb, ha, hd⟩
    subst ha
    exact ⟨List.mem_map.2 ⟨b, hb, rfl⟩, decide_eq_true hd⟩

/-- C5: each spatial query returns a list sorted ascending by Euclidean
distance from the query point, and no returned entry's distance exceeds
the radius (for buildings the distance is measured from the footprint
centre, as the source computes it). Proved for every radius, in
particular every radius that is at least 0. -/
theorem spatial_queries_sorted (w : World) (x y r : ℝ) :
    (List.Sorted distLE (w.getObjectsNear x y r) ∧
      ∀ a ∈ w.getObjectsNear x y r, a.distance ≤ r) ∧
    (List.Sorted distLEN (w.getNPCsNear x y r) ∧
      ∀ a ∈ w.getNPCsNear x y r, a.distance ≤ r) ∧
    (List.Sorted distLEB (w.getBuildingsNear x y r) ∧
      ∀ a ∈ w.getBuildingsNear x y r, a.distance ≤ r) := by
  refine ⟨⟨List.sorted_insertionSort distLE _, ?_⟩,
    ⟨List.sorted_insertionSort distLEN _, ?_⟩,
    ⟨List.sorted_insertionSort distLEB _, ?_⟩⟩
  · intro a ha
    have hmem : a ∈ collectNear w x y r :=
      ((List.perm_insertionSort distLE _).mem_iff).1 ha
    obtain ⟨k, hk, c, hL, o, ho, hao, hd⟩ := (mem_collectNear_iff w x y r a).1 hmem
    rw [hao]
    exact hd
  · intro a ha
    have hmem := ((List.perm_insertionSort distLEN _).mem_iff).1 ha
    obtain ⟨n, hn, hao, hd⟩ := (mem_npcsNear_iff w x y r a).1 hmem
    rw [hao]
    exact hd
  · intro a ha
    have hmem := ((List.perm_insertionSort distLEB _).mem_iff).1 ha
    obtain ⟨b, hb, hao, hd⟩ := (mem_buildingsNear_iff w x y r a).1 hmem
    rw [hao]
    exact hd

/-- C10: the three spatial queries are pure reads. In this embedding each
is a function producing only the result list (no updated world: the
methods assign nothing), and this membership characterization shows that
every returned record is a fresh copy of a stored entity augmented with
its distance, that `getObjectsNear` draws only from chunks already present
in the cache (`lookupChunk ... = some`) inside the 3-by-3 block — so
objects inside the radius but lying in a never-generated chunk are
silently omitted — and that NPC/building queries read only the flat
world lists. -/
theorem spatial_queries_pure (w : World) (x y r : ℝ) :
    (∀ a : NearObj, a ∈ w.getObjectsNear x y r ↔
      ∃ k ∈ chunkBlock ⌊x / 512⌋ ⌊y / 512⌋, ∃ c, lookupChunk w.chunks k = some c ∧
        ∃ o ∈ c.objects, a = ⟨o, jsHypot (o.x - x) (o.y - y)⟩ ∧
          jsHypot (o.x - x) (o.y - y) ≤ r) ∧
    (∀ a : NearNPC, a ∈ w.getNPCsNear x y r ↔
      ∃ n ∈ w.npcs, a = ⟨n, jsHypot (n.x - x) (n.y - y)⟩ ∧
        jsHypot (n.x - x) (n.y - y) ≤ r) ∧
    (∀ a : NearBuilding, a ∈ w.getBuildingsNear x y r ↔
      ∃ b ∈ w.buildings,
        a = ⟨b, jsHypot (b.x + b.width / 2 - x) (b.y + b.height / 2 - y)⟩ ∧
        jsHypot (b.x + b.width / 2 - x) (b.y + b.height / 2 - y) ≤ r) := by
  refine ⟨fun a => ?_, fun a => ?_, fun a => ?_⟩
  · rw [show w.getObjectsNear x y r =
      List.insertionSort distLE (collectNear w x y r) from rfl,
      (List.perm_insertionSort distLE _).mem_iff]
    exact mem_collectNear_iff w x y r a
  · rw [World.getNPCsNear, (List.perm_insertionSort distLEN _).mem_iff]
    exact mem_npcsNear_iff w x y r a
  · rw [World.getBuildingsNear, (List.perm_insertionSort distLEB _).mem_iff]
    exact mem_buildingsNear_iff w x y r a

/-- The first building (in list order) whose footprint contains the
point: this is the building whose door test decides `isWalkable`. -/
noncomputable def firstHit (x y : ℝ) : List Building → Option Building
  | [] => none
  | b :: rest => if inFootprint b x y then some b else firstHit x y rest

lemma walkableBuildings_firstHit (x y : ℝ) (bs : List Building) :
    (firstHit x y bs = none → walkableBuildings x y bs) ∧
    (∀ b, firstHit x y bs = some b →
      (walkableBuildings x y bs ↔ dooropen b x y)) := by
  induction bs with
  | nil => exact ⟨fun _ => trivial, fun b h => Option.noConfusion h⟩
  | cons hd tl ih =>
      by_cases hf : inFootprint hd x y
      · constructor
        · intro h
          simp only [firstHit, if_pos hf] at h
          exact Option.noConfusion h
        · intro b h
          simp only [firstHit, if_pos hf] at h
          injection h with h
          subst h
          simp only [walkableBuildings, if_pos hf]
      · constructor
        · intro h
          simp only [firstHit, if_neg hf] at h
          simp only [walkableBuildings, if_neg hf]
          exact ih.1 h
        · intro b h
          simp only [firstHit, if_neg hf] at h
          simp only [walkableBuildings, if_neg hf]
          exact ih.2 b h

/-- C3 (amended): a water-biome point is never walkable; off water, a
point contained in no building footprint is walkable; a point whose first
containing building (list order) is `b` is walkable exactly when `b` has a
door and the point lies in the 20px-per-axis box around the door centre
(the bottom-midpoint of the footprint) — a box test, not a Euclidean
20px disc; and `generateBuilding` gives a door to every type except
well. -/
theorem walkable_characterization :
    (∀ (w : World) (x y : ℝ), w.getBiome x y = .water → ¬ w.isWalkable x y) ∧
    (∀ (w : World) (x y : ℝ), w.getBiome x y ≠ .water →
      ((firstHit x y w.buildings = none → w.isWalkable x y) ∧
       (∀ b, firstHit x y w.buildings = some b →
         (w.isWalkable x y ↔ b.door = true ∧
           |x - (b.x + b.width / 2)| < 20 ∧ |y - (b.y + b.height)| < 20)))) ∧
    (∀ (x y : ℝ) (now : Nat) (rng : SeededRandom) (ctr : Nat),
      ((generateBuilding x y now rng ctr).1.door = true ↔
        (generateBuilding x y now rng ctr).1.type ≠ .well)) := by
  refine ⟨?_, ?_, ?_⟩
  · intro w x y hw hwalk
    exact hwalk.1 hw
  · intro w x y hw
    constructor
    · intro h
      exact ⟨hw, (walkableBuildings_firstHit x y w.buildings).1 h⟩
    · intro b h
      constructor
      · intro hwalk
        exact ((walkableBuildings_firstHit x y w.buildings).2 b h).1 hwalk.2
      · intro hd
        exact ⟨hw, ((walkableBuildings_firstHit x y w.buildings).2 b h).2 hd⟩
  · intro x y now rng ctr
    unfold generateBuilding
    simp only []
    simp [decide_eq_true_iff]

/-- A noise instance with empty tables: every gradient fetch returns the
default (0, 0), so the field is constantly zero. Used to build a concrete
world whose biome is provably plains everywhere. -/
def flatNoise : SimplexNoise :=
  { permutation := [], gradients := [] }

lemma flatNoise_noise2D (x y : ℝ) : flatNoise.noise2D x y = 0 := by
  unfold SimplexNoise.noise2D
  simp [flatNoise, SimplexNoise.lerp, SimplexNoise.dot]

lemma flatNoise_fbmAux (x y lac pers : ℝ) (k : Nat) :
    ∀ amp freq maxV, (fbmAux flatNoise x y lac pers k amp freq 0 maxV).1 = 0 := by
  induction k with
  | zero => intro amp freq maxV; rfl
  | succ n ih =>
      intro amp freq maxV
      show (fbmAux flatNoise x y lac pers n (amp * pers) (freq * lac)
        (0 + amp * flatNoise.noise2D (x * freq) (y * freq)) (maxV + amp)).1 = 0
      rw [flatNoise_noise2D]
      rw [show (0 : ℝ) + amp * 0 = 0 by ring]
      exact ih _ _ _

lemma flatNoise_fbm (x y : ℝ) (oct : Nat) (lac pers : ℝ) :
    flatNoise.fbm x y oct lac pers = 0 := by
  unfold SimplexNoise.fbm
  simp only []
  rw [flatNoise_fbmAux]
  simp

/-- Concrete door-bearing building for the walkability counterexample:
a house at (0, 0) of legal generated size 60 by 80... width 60, height 50. -/
def B0 : Building :=
  { id := (0, 0), type := .house, x := 0, y := 0, width := 60, height := 50,
    door := true, interactable := true }

/-- Concrete world with constantly-plains biome and the single building
`B0`. -/
def W0 : World :=
  { seed := 0, noise := flatNoise, rng := SeededRandom.ofSeed 0,
    chunks := [], buildings := [B0], npcs := [],
    biomeNoise := flatNoise, moistureNoise := flatNoise }

lemma W0_biome (x y : ℝ) : W0.getBiome x y = .plains := by
  unfold World.getBiome
  rw [show W0.noise = flatNoise from rfl, show W0.moistureNoise = flatNoise from rfl]
  rw [flatNoise_fbm, flatNoise_fbm]
  rw [if_neg (by norm_num), if_neg (by norm_num), if_neg (by norm_num),
    if_neg (by norm_num), if_neg (by norm_num), if_neg (by norm_num)]

lemma W0_walkable_15_35 : W0.isWalkable 15 35 := by
  refine ⟨by rw [W0_biome]; simp, ?_⟩
  show walkableBuildings 15 35 [B0]
  have hf : inFootprint B0 15 35 := by
    refine ⟨by norm_num [B0], by norm_num [B0], by norm_num [B0], by norm_num [B0]⟩
  simp only [walkableBuildings, if_pos hf]
  refine ⟨rfl, by norm_num [B0], by norm_num [B0]⟩

/-- Counterexample for C3 as stated: the point (15, 35) lies strictly
inside the footprint of the door-bearing building `B0` and is more than
20px (Euclidean) away from the door centre (30, 50) — distance
sqrt(450) > 20 — yet `isWalkable` returns true, because the source tests
a 20px-per-axis box (|dx| < 20 and |dy| < 20), not a Euclidean disc. -/
theorem walkable_door_euclid_cx :
    inFootprint B0 15 35 ∧ B0.door = true ∧
    20 < jsHypot (15 - (B0.x + B0.width / 2)) (35 - (B0.y + B0.height)) ∧
    W0.isWalkable 15 35 := by
  refine ⟨⟨by norm_num [B0], by norm_num [B0], by norm_num [B0],
    by norm_num [B0]⟩, rfl, ?_, W0_walkable_15_35⟩
  unfold jsHypot
  rw [show (15 - (B0.x + B0.width / 2)) * (15 - (B0.x + B0.width / 2)) +
      (35 - (B0.y + B0.height)) * (35 - (B0.y + B0.height)) = 450 by
    norm_num [B0]]
  rw [show (450 : ℝ) = 15 * 15 + 15 * 15 by norm_num]
  rw [Real.lt_sqrt (by norm_num)]
  norm_num

/-- Witness for C3 (amended): at the concrete world `W0` and point
(15, 35), whose first containing building is `B0`, the theorem's box
criterion makes the point walkable. -/
theorem walkable_characterization_witness : W0.isWalkable 15 35 := by
  have hbio : W0.getBiome 15 35 ≠ .water := by rw [W0_biome]; simp
  have hfirst : firstHit 15 35 W0.buildings = some B0 := by
    show firstHit 15 35 [B0] = some B0
    have hf : inFootprint B0 15 35 :=
      ⟨by norm_num [B0], by norm_num [B0], by norm_num [B0], by norm_num [B0]⟩
    simp only [firstHit, if_pos hf]
  exact ((walkable_characterization.2.1 W0 15 35 hbio).2 B0 hfirst).2
    ⟨rfl, by norm_num [B0], by norm_num [B0]⟩

lemma updateNPC_home (w : World) (npc : NPC) (dt px py r1 r2 : ℝ) :
    (w.updateNPC npc dt px py r1 r2).homeX = npc.homeX ∧
    (w.updateNPC npc dt px py r1 r2).homeY = npc.homeY := by
  unfold World.updateNPC
  simp only []
  set T := (if npc.stateTimer - dt ≤ 0 then
      (if npc.state = NpcState.idle
        then (NpcState.walking, r1 * Real.pi * 2, 2 + r2 * 3)
        else (NpcState.idle, npc.direction, 1 + r1 * 4))
      else (npc.state, npc.direction, npc.stateTimer - dt)) with hT
  set F := (if jsHypot (npc.x - px) (npc.y - py) < 100
      then (NpcState.idle, jsAtan2 (py - npc.y) (px - npc.x))
      else (T.1, T.2.1)) with hF
  by_cases hw : F.1 = NpcState.walking
  · rw [if_pos hw]
    by_cases hg : jsHypot (npc.x + Real.cos F.2 * 30 * dt - npc.homeX)
        (npc.y + Real.sin F.2 * 30 * dt - npc.homeY) < 150 ∧
        w.isWalkable (npc.x + Real.cos F.2 * 30 * dt)
          (npc.y + Real.sin F.2 * 30 * dt)
    · rw [if_pos hg]; exact ⟨rfl, rfl⟩
    · rw [if_neg hg]; exact ⟨rfl, rfl⟩
  · rw [if_neg hw]; exact ⟨rfl, rfl⟩

lemma updateNPC_char (w : World) (npc : NPC) (dt px py r1 r2 : ℝ) :
    ((w.updateNPC npc dt px py r1 r2).x = npc.x ∧
     (w.updateNPC npc dt px py r1 r2).y = npc.y ∧
     ((w.updateNPC npc dt px py r1 r2).state = .walking →
       (w.updateNPC npc dt px py r1 r2).direction =
         jsAtan2 (npc.homeY - npc.y) (npc.homeX - npc.x))) ∨
    (jsHypot ((w.updateNPC npc dt px py r1 r2).x - npc.homeX)
       ((w.updateNPC npc dt px py r1 r2).y - npc.homeY) < 150 ∧
     w.isWalkable (w.updateNPC npc dt px py r1 r2).x
       (w.updateNPC npc dt px py r1 r2).y) := by
  unfold World.updateNPC
  simp only []
  set T := (if npc.stateTimer - dt ≤ 0 then
      (if npc.state = NpcState.idle
        then (NpcState.walking, r1 * Real.pi * 2, 2 + r2 * 3)
        else (NpcState.idle, npc.direction, 1 + r1 * 4))
      else (npc.state, npc.direction, npc.stateTimer - dt)) with hT
  set F := (if jsHypot (npc.x - px) (npc.y - py) < 100
      then (NpcState.idle, jsAtan2 (py - npc.y) (px - npc.x))
      else (T.1, T.2.1)) with hF
  by_cases hw : F.1 = NpcState.walking
  · rw [if_pos hw]
    by_cases hg : jsHypot (npc.x + Real.cos F.2 * 30 * dt - npc.homeX)
        (npc.y + Real.sin F.2 * 30 * dt - npc.homeY) < 150 ∧
        w.isWalkable (npc.x + Real.cos F.2 * 30 * dt)
          (npc.y + Real.sin F.2 * 30 * dt)
    · rw [if_pos hg]
      exact Or.inr ⟨hg.1, hg.2⟩
    · rw [if_neg hg]
      exact Or.inl ⟨rfl, rfl, fun _ => rfl⟩
  · rw [if_neg hw]
    exact Or.inl ⟨rfl, rfl, fun hst => absurd hst hw⟩

lemma updateNPC_dist (w : World) (npc : NPC) (dt px py r1 r2 : ℝ)
    (h : jsHypot (npc.x - npc.homeX) (npc.y - npc.homeY) < 150) :
    jsHypot ((w.updateNPC npc dt px py r1 r2).x -
        (w.updateNPC npc dt px py r1 r2).homeX)
      ((w.updateNPC npc dt px py r1 r2).y -
        (w.updateNPC npc dt px py r1 r2).homeY) < 150 := by
  obtain ⟨hhx, hhy⟩ := updateNPC_home w npc dt px py r1 r2
  rw [hhx, hhy]
  rcases updateNPC_char w npc dt px py r1 r2 with ⟨hx, hy, -⟩ | ⟨hd, -⟩
  · rw [hx, hy]; exact h
  · exact hd

lemma updateNPCSeq_dist (w : World) (npc : NPC)
    (inputs : List (ℝ × ℝ × ℝ × ℝ × ℝ))
    (h : jsHypot (npc.x - npc.homeX) (npc.y - npc.homeY) < 150) :
    jsHypot ((updateNPCSeq w npc inputs).x - (updateNPCSeq w npc inputs).homeX)
      ((updateNPCSeq w npc inputs).y - (updateNPCSeq w npc inputs).homeY)
      < 150 := by
  induction inputs generalizing npc with
  | nil => exact h
  | cons hd rest ih =>
      obtain ⟨dt, px, py, r1, r2⟩ := hd
      exact ih _ (updateNPC_dist w npc dt px py r1 r2 h)

lemma spawnOne_home (w : World) (px py : ℝ) (now : Nat) (rng : SeededRandom)
    (ctr : Nat) :
    ∀ npc ∈ (spawnOne w px py now rng ctr).1,
      npc.x = npc.homeX ∧ npc.y = npc.homeY := by
  unfold spawnOne
  simp only []
  split_ifs <;> simp

lemma spawnLoop_home (w : World) (px py : ℝ) (now : Nat) (k : Nat) :
    ∀ (rng : SeededRandom) (ctr : Nat),
      ∀ npc ∈ (spawnLoop w px py now k rng ctr).1,
        npc.x = npc.homeX ∧ npc.y = npc.homeY := by
  induction k with
  | zero => intro rng ctr npc h; simp [spawnLoop] at h
  | succ n ih =>
      intro rng ctr npc h
      simp only [spawnLoop, List.mem_append] at h
      rcases h with h | h
      · exact spawnOne_home w px py now rng ctr npc h
      · exact ih _ _ npc h

/-- C9: home tethering of NPCs. (1) Every NPC created by `spawnNPCs` has
its home position equal to its spawn position (pre-existing NPCs are
untouched). (2) Any NPC whose distance from home is below 150px keeps
that property across every sequence of `updateNPC` ticks (any time
deltas, player positions and Math.random draws) — in particular every
spawned NPC, which starts at distance 0. (3) Per tick, either the
position is unchanged — and in the blocked walking case only the
direction is reset, to face home — or the step was applied, in which
case the resulting position is within 150px of home and walkable. -/
theorem npc_home_tether :
    (∀ (w : World) (px py : ℝ) (now ctr : Nat),
      ∀ npc ∈ (w.spawnNPCs px py now ctr).1.npcs,
        npc ∈ w.npcs ∨ (npc.x = npc.homeX ∧ npc.y = npc.homeY)) ∧
    (∀ (w : World) (npc : NPC) (inputs : List (ℝ × ℝ × ℝ × ℝ × ℝ)),
      jsHypot (npc.x - npc.homeX) (npc.y - npc.homeY) < 150 →
      jsHypot ((updateNPCSeq w npc inputs).x -
          (updateNPCSeq w npc inputs).homeX)
        ((updateNPCSeq w npc inputs).y -
          (updateNPCSeq w npc inputs).homeY) < 150) ∧
    (∀ (w : World) (npc : NPC) (dt px py r1 r2 : ℝ),
      ((w.updateNPC npc dt px py r1 r2).x = npc.x ∧
       (w.updateNPC npc dt px py r1 r2).y = npc.y ∧
       ((w.updateNPC npc dt px py r1 r2).state = .walking →
         (w.updateNPC npc dt px py r1 r2).direction =
           jsAtan2 (npc.homeY - npc.y) (npc.homeX - npc.x))) ∨
      (jsHypot ((w.updateNPC npc dt px py r1 r2).x - npc.homeX)
         ((w.updateNPC npc dt px py r1 r2).y - npc.homeY) < 150 ∧
       w.isWalkable (w.updateNPC npc dt px py r1 r2).x
         (w.updateNPC npc dt px py r1 r2).y)) := by
  refine ⟨?_, updateNPCSeq_dist, updateNPC_char⟩
  intro w px py now ctr npc h
  have : (w.spawnNPCs px py now ctr).1.npcs =
      w.npcs ++ (spawnLoop w px py now 20
        (SeededRandom.ofSeed (w.seed + 999)) ctr).1 := rfl
  rw [this, List.mem_append] at h
  rcases h with h | h
  · exact Or.inl h
  · exact Or.inr (spawnLoop_home w px py now 20 _ _ npc h)

/-- Concrete NPC at its home for the C9 witness. -/
def N0 : NPC :=
  { id := (0, 0), type := .villager, x := 0, y := 0, homeX := 0, homeY := 0,
    direction := 0, state := .idle, stateTimer := 1, interactable := true }

/-- Witness for C9: the at-home hypothesis holds for the concrete NPC
`N0` (distance 0 from home) and one update tick keeps it within 150px. -/
theorem npc_home_tether_witness :
    jsHypot ((updateNPCSeq W0 N0 [(1, 500, 500, 0, 0)]).x -
        (updateNPCSeq W0 N0 [(1, 500, 500, 0, 0)]).homeX)
      ((updateNPCSeq W0 N0 [(1, 500, 500, 0, 0)]).y -
        (updateNPCSeq W0 N0 [(1, 500, 500, 0, 0)]).homeY) < 150 := by
  apply npc_home_tether.2.1 W0 N0 [(1, 500, 500, 0, 0)]
  show jsHypot (N0.x - N0.homeX) (N0.y - N0.homeY) < 150
  unfold jsHypot
  rw [show (N0.x - N0.homeX) * (N0.x - N0.homeX) +
      (N0.y - N0.homeY) * (N0.y - N0.homeY) = 0 by norm_num [N0]]
  rw [Real.sqrt_zero]
  norm_num

/-- All objects carrying a given id, across all cached chunks in order. -/
def occs (cs : List ((Int × Int) × Chunk)) (i : EntityId) : List Obj :=
  (cs.flatMap fun e => e.2.objects).filter fun o => decide (o.id = i)

/-- The state change of a tree/rock harvest under a globally unique id:
the object is removed from its chunk's list. -/
def removeObjById (cs : List ((Int × Int) × Chunk)) (i : EntityId) :
    List ((Int × Int) × Chunk) :=
  cs.map fun e => (e.1,
    { e.2 with objects := e.2.objects.filter fun o => !decide (o.id = i) })

/-- The state change of a flower/mushroom/bush harvest under a globally
unique id: the object's harvestable flag is cleared in place. -/
def depleteObjById (cs : List ((Int × Int) × Chunk)) (i : EntityId) :
    List ((Int × Int) × Chunk) :=
  cs.map fun e => (e.1,
    { e.2 with objects := e.2.objects.map fun o =>
        if o.id = i then { o with harvestable := false } else o })

lemma harvestScan_none (i : EntityId) (l : List Obj)
    (h : ∀ o ∈ l, o.id ≠ i) : harvestScan i l = none := by
  induction l with
  | nil => rfl
  | cons hd tl ih =>
      simp only [harvestScan, if_neg (h hd (List.mem_cons_self hd tl))]
      rw [ih fun o ho => h o (List.mem_cons_of_mem hd ho)]
      rfl

lemma harvestScan_found (i : EntityId) (pre : List Obj) (o : Obj)
    (post : List Obj) (ho : o.id = i) (hpre : ∀ o' ∈ pre, o'.id ≠ i) :
    harvestScan i (pre ++ o :: post) = some (pre, o, post) := by
  induction pre with
  | nil => simp [harvestScan, ho]
  | cons hd tl ih =>
      have hne := hpre hd (List.mem_cons_self hd tl)
      have ih' := ih fun o' h' => hpre o' (List.mem_cons_of_mem hd h')
      simp only [List.cons_append, harvestScan, if_neg hne, List.append_eq, ih']
      rfl

lemma list_map_self {α : Type} (l : List α) (f : α → α)
    (h : ∀ a ∈ l, f a = a) : l.map f = l := by
  induction l with
  | nil => rfl
  | cons a t ih =>
      rw [List.map_cons, h a (List.mem_cons_self a t),
        ih fun b hb => h b (List.mem_cons_of_mem a hb)]

lemma filter_eq_single_decomp (i : EntityId) (l : List Obj) (o : Obj)
    (h : l.filter (fun o' => decide (o'.id = i)) = [o]) :
    ∃ pre post, l = pre ++ o :: post ∧ (∀ a ∈ pre, a.id ≠ i) ∧
      (∀ a ∈ post, a.id ≠ i) ∧ o.id = i := by
  induction l with
  | nil => simp [List.filter] at h
  | cons hd tl ih =>
      by_cases hh : hd.id = i
      · rw [List.filter_cons_of_pos (by simpa using hh)] at h
        injection h with h1 h2
        subst h1
        refine ⟨[], tl, rfl, by simp, ?_, hh⟩
        intro a ha hai
        have hmem : a ∈ tl.filter (fun o' => decide (o'.id = i)) :=
          List.mem_filter.2 ⟨ha, by simpa using hai⟩
        rw [h2] at hmem
        simp at hmem
      · rw [List.filter_cons_of_neg (by simpa using hh)] at h
        obtain ⟨pre, post, hl, hpre, hpost, hoi⟩ := ih h
        refine ⟨hd :: pre, post, by rw [hl]; rfl, ?_, hpost, hoi⟩
        intro a ha
        rcases List.mem_cons.1 ha with rfl | ha
        · exact hh
        · exact hpre a ha

lemma occs_cons (e : (Int × Int) × Chunk) (cs : List ((Int × Int) × Chunk))
    (i : EntityId) :
    occs (e :: cs) i =
      e.2.objects.filter (fun o => decide (o.id = i)) ++ occs cs i := by
  simp [occs, List.flatMap_cons, List.filter_append]

lemma occs_nil_chunk_unchanged (cs : List ((Int × Int) × Chunk))
    (i : EntityId) (h : occs cs i = []) :
    removeObjById cs i = cs ∧ depleteObjById cs i = cs := by
  induction cs with
  | nil => exact ⟨rfl, rfl⟩
  | cons e rest ih =>
      rw [occs_cons] at h
      have h1 : e.2.objects.filter (fun o => decide (o.id = i)) = [] :=
        (List.append_eq_nil.1 h).1
      have h2 : occs rest i = [] := (List.append_eq_nil.1 h).2
      have hnone : ∀ o ∈ e.2.objects, ¬(o.id = i) := by
        intro o ho hoi
        have hmem : o ∈ e.2.objects.filter (fun o => decide (o.id = i)) :=
          List.mem_filter.2 ⟨ho, by simpa using hoi⟩
        rw [h1] at hmem
        simp at hmem
      obtain ⟨ihr, ihd⟩ := ih h2
      constructor
      · have hcons : removeObjById (e :: rest) i =
            (e.1, { e.2 with objects :=
              e.2.objects.filter fun o => !decide (o.id = i) }) ::
            removeObjById rest i := rfl
        rw [hcons, ihr,
          List.filter_eq_self.2 (by intro a ha; simpa using hnone a ha)]
      · have hcons : depleteObjById (e :: rest) i =
            (e.1, { e.2 with objects := e.2.objects.map fun o =>
              if o.id = i then { o with harvestable := false } else o }) ::
            depleteObjById rest i := rfl
        rw [hcons, ihd,
          list_map_self _ _ (by intro a ha; rw [if_neg (hnone a ha)])]

lemma harvestScan_some_spec (i : EntityId) (l : List Obj) :
    ∀ pre o post, harvestScan i l = some (pre, o, post) →
      l = pre ++ o :: post ∧ o.id = i := by
  induction l with
  | nil => intro pre o post h; exact Option.noConfusion h
  | cons hd tl ih =>
      intro pre o post h
      by_cases hh : hd.id = i
      · simp only [harvestScan, if_pos hh] at h
        injection h with h1
        obtain ⟨rfl, rfl, rfl⟩ : pre = [] ∧ hd = o ∧ tl = post := by
          have h2 := h1.symm
          simp only [Prod.mk.injEq] at h2
          exact ⟨h2.1, h2.2.1.symm, h2.2.2.symm⟩
        exact ⟨rfl, hh⟩
      · simp only [harvestScan, if_neg hh] at h
        cases hs : harvestScan i tl with
        | none => rw [hs] at h; exact Option.noConfusion h
        | some t =>
            obtain ⟨p', o', q'⟩ := t
            rw [hs] at h
            simp only [Option.map_some'] at h
            injection h with h1
            simp only [Prod.mk.injEq] at h1
            obtain ⟨hpre, ho, hpost⟩ := h1
            obtain ⟨hl', hoi⟩ := ih p' o' q' hs
            subst hpre; subst ho; subst hpost
            rw [hl']
            exact ⟨rfl, hoi⟩

lemma harvestAux_neg (i : EntityId) :
    ∀ cs, (∀ o ∈ occs cs i, o.harvestable = false) →
      harvestAux i cs = (none, cs, []) := by
  intro cs
  induction cs with
  | nil => intro _; rfl
  | cons e rest ih =>
      intro h
      obtain ⟨k, c⟩ := e
      rw [occs_cons] at h
      have hrest : ∀ o ∈ occs rest i, o.harvestable = false :=
        fun o ho => h o (List.mem_append_right _ ho)
      cases hs : harvestScan i c.objects with
      | none =>
          simp only [harvestAux, hs, ih hrest]
      | some t =>
          obtain ⟨pre, o, post⟩ := t
          obtain ⟨hl, hoi⟩ := harvestScan_some_spec i c.objects pre o post hs
          have homem : o ∈ c.objects.filter (fun o' => decide (o'.id = i)) := by
            refine List.mem_filter.2 ⟨?_, by simpa using hoi⟩
            rw [hl]
            exact List.mem_append_right _ (List.mem_cons_self o post)
          have hof : o.harvestable = false :=
            h o (List.mem_append_left _ homem)
          have hcond : ¬(o.harvestable = true) := by rw [hof]; simp
          simp only [harvestAux, hs, if_neg hcond, ih hrest]

lemma obj_set_true_eq (o : Obj) (h : o.harvestable = true) :
    { o with harvestable := true } = o := by
  cases o
  simp_all

lemma harvestAux_pos (i : EntityId) (o : Obj) (hharv : o.harvestable = true) :
    ∀ cs, occs cs i = [o] →
      (harvestAux i cs).1 = some (o.resource, o.amount) ∧
      ((o.type = .tree ∨ o.type = .rock) →
        (harvestAux i cs).2.1 = removeObjById cs i ∧
        (harvestAux i cs).2.2 = []) ∧
      (¬(o.type = .tree ∨ o.type = .rock) →
        (harvestAux i cs).2.1 = depleteObjById cs i ∧
        (harvestAux i cs).2.2 = [(i, 30000)]) := by
  intro cs
  induction cs with
  | nil => intro h; simp [occs] at h
  | cons e rest ih =>
      intro h
      obtain ⟨k, c⟩ := e
      rw [occs_cons] at h
      dsimp only at h
      cases hA : c.objects.filter (fun o' => decide (o'.id = i)) with
      | nil =>
          rw [hA, List.nil_append] at h
          have hnone : ∀ o' ∈ c.objects, o'.id ≠ i := by
            intro o' ho' hoi
            have hmem : o' ∈ c.objects.filter (fun o' => decide (o'.id = i)) :=
              List.mem_filter.2 ⟨ho', by simpa using hoi⟩
            rw [hA] at hmem
            simp at hmem
          have hs := harvestScan_none i c.objects hnone
          have hfil : c.objects.filter (fun o' => !decide (o'.id = i)) =
              c.objects :=
            List.filter_eq_self.2 (by intro a ha; simpa using hnone a ha)
          have hmapid : c.objects.map (fun o' =>
              if o'.id = i then { o' with harvestable := false } else o') =
              c.objects :=
            list_map_self _ _ (by intro a ha; rw [if_neg (hnone a ha)])
          obtain ⟨ih1, ih2, ih3⟩ := ih h
          simp only [harvestAux, hs]
          refine ⟨ih1, ?_, ?_⟩
          · intro ht
            obtain ⟨e1, e2⟩ := ih2 ht
            refine ⟨?_, e2⟩
            have hcons : removeObjById ((k, c) :: rest) i =
                (k, { c with objects :=
                  c.objects.filter fun o' => !decide (o'.id = i) }) ::
                removeObjById rest i := rfl
            rw [hcons, hfil, e1]
          · intro ht
            obtain ⟨e1, e2⟩ := ih3 ht
            refine ⟨?_, e2⟩
            have hcons : depleteObjById ((k, c) :: rest) i =
                (k, { c with objects := c.objects.map fun o' =>
                  if o'.id = i then { o' with harvestable := false }
                  else o' }) :: depleteObjById rest i := rfl
            rw [hcons, hmapid, e1]
      | cons o0 tail =>
          rw [hA, List.cons_append] at h
          injection h with h1 h2
          rw [h1] at hA
          have htail : tail = [] := (List.append_eq_nil.1 h2).1
          have hrest0 : occs rest i = [] := (List.append_eq_nil.1 h2).2
          rw [htail] at hA
          obtain ⟨pre, post, hl, hpre, hpost, hoi⟩ :=
            filter_eq_single_decomp i c.objects o hA
          have hs : harvestScan i c.objects = some (pre, o, post) := by
            rw [hl]
            exact harvestScan_found i pre o post hoi hpre
          obtain ⟨hrem, hdep⟩ := occs_nil_chunk_unchanged rest i hrest0
          by_cases htype : o.type = .tree ∨ o.type = .rock
          · simp only [harvestAux, hs, if_pos hharv, if_pos htype]
            refine ⟨by trivial, fun _ => ⟨?_, by trivial⟩,
              fun hnot => absurd htype hnot⟩
            have hcons : removeObjById ((k, c) :: rest) i =
                (k, { c with objects :=
                  c.objects.filter fun o' => !decide (o'.id = i) }) ::
                removeObjById rest i := rfl
            rw [hcons, hrem, hl, List.filter_append,
              List.filter_eq_self.2 (by intro a ha; simpa using hpre a ha),
              List.filter_cons_of_neg (by simpa using hoi),
              List.filter_eq_self.2 (by intro a ha; simpa using hpost a ha)]
          · simp only [harvestAux, hs, if_pos hharv, if_neg htype]
            refine ⟨by trivial, fun ht => absurd ht htype,
              fun _ => ⟨?_, by trivial⟩⟩
            have hcons : depleteObjById ((k, c) :: rest) i =
                (k, { c with objects := c.objects.map fun o' =>
                  if o'.id = i then { o' with harvestable := false }
                  else o' }) :: depleteObjById rest i := rfl
            rw [hcons, hdep, hl, List.map_append,
              list_map_self _ _ (by intro a ha; rw [if_neg (hpre a ha)]),
              List.map_cons, if_pos hoi,
              list_map_self _ _ (by intro a ha; rw [if_neg (hpost a ha)])]

lemma respawn_after_deplete (cs : List ((Int × Int) × Chunk)) (i : EntityId)
    (hall : ∀ o' ∈ cs.flatMap (fun e => e.2.objects), o'.id = i →
      o'.harvestable = true) :
    (depleteObjById cs i).map (fun e => (e.1,
      { e.2 with objects := e.2.objects.map fun o =>
          if o.id = i then { o with harvestable := true } else o })) = cs := by
  induction cs with
  | nil => rfl
  | cons e rest ih =>
      obtain ⟨k, c⟩ := e
      have hhd : ∀ o' ∈ c.objects, o'.id = i → o'.harvestable = true := by
        intro o' ho'
        refine hall o' ?_
        rw [List.flatMap_cons]
        exact List.mem_append_left _ ho'
      have hrest : ∀ o' ∈ rest.flatMap (fun e => e.2.objects), o'.id = i →
          o'.harvestable = true := by
        intro o' ho'
        refine hall o' ?_
        rw [List.flatMap_cons]
        exact List.mem_append_right _ ho'
      have hpt : ∀ o' ∈ c.objects,
          ((fun o => if o.id = i then { o with harvestable := true } else o) ∘
           (fun o => if o.id = i then { o with harvestable := false } else o))
            o' = o' := by
        intro o' ho'
        by_cases hid : o'.id = i
        · have hh := hhd o' ho' hid
          obtain ⟨oid, oty, ott, ox, oy, oh, ores, oam⟩ := o'
          simp only at hid hh
          simp [Function.comp, hid, hh]
        · simp [Function.comp, hid]
      have hcons : depleteObjById ((k, c) :: rest) i =
          (k, { c with objects := c.objects.map fun o =>
            if o.id = i then { o with harvestable := false } else o }) ::
          depleteObjById rest i := rfl
      rw [hcons, List.map_cons, ih hrest]
      congr 1
      dsimp only
      rw [List.map_map, list_map_self _ _ hpt]

/-- C4: harvest lifecycle under globally unique ids. If the cached chunks
contain exactly one object carrying the id and it is harvestable, the
call returns its {resource, amount}; its only state change is to splice
the object out of its chunk (types tree and rock, no timer scheduled) or
to clear its harvestable flag in place — same id and position — while
scheduling a 30000ms timer whose firing (`fireRespawn`) restores the
world exactly (types flower, mushroom and bush). If no harvestable
object carries the id (absent, already removed, depleted, or a
generated cactus, which is born with harvestable = false), the call
returns null and changes nothing. -/
theorem harvest_lifecycle :
    (∀ (w : World) (i : EntityId) (o : Obj),
      occs w.chunks i = [o] → o.harvestable = true →
      ((w.harvestObject i).1 = some (o.resource, o.amount) ∧
       ((o.type = .tree ∨ o.type = .rock) →
         ((w.harvestObject i).2.1 =
            { w with chunks := removeObjById w.chunks i } ∧
          (w.harvestObject i).2.2 = [])) ∧
       ((o.type = .flower ∨ o.type = .mushroom ∨ o.type = .bush) →
         ((w.harvestObject i).2.1 =
            { w with chunks := depleteObjById w.chunks i } ∧
          (w.harvestObject i).2.2 = [(i, 30000)] ∧
          fireRespawn (w.harvestObject i).2.1 i = w)))) ∧
    (∀ (w : World) (i : EntityId),
      (∀ o ∈ occs w.chunks i, o.harvestable = false) →
      w.harvestObject i = (none, w, [])) := by
  constructor
  · intro w i o hocc hharv
    obtain ⟨h1, h2, h3⟩ := harvestAux_pos i o hharv w.chunks hocc
    refine ⟨h1, ?_, ?_⟩
    · intro ht
      obtain ⟨e1, e2⟩ := h2 ht
      constructor
      · show ({ w with chunks := (harvestAux i w.chunks).2.1 } : World) = _
        rw [e1]
      · exact e2
    · intro ht
      have hnt : ¬(o.type = .tree ∨ o.type = .rock) := by
        rcases ht with ht | ht | ht <;> rw [ht] <;>
          rintro (h | h) <;> exact ObjType.noConfusion h
      obtain ⟨e1, e2⟩ := h3 hnt
      have hchunks : (w.harvestObject i).2.1 =
          { w with chunks := depleteObjById w.chunks i } := by
        show ({ w with chunks := (harvestAux i w.chunks).2.1 } : World) = _
        rw [e1]
      refine ⟨hchunks, e2, ?_⟩
      rw [hchunks]
      show ({ w with chunks := (depleteObjById w.chunks i).map _ } : World) = w
      have hall : ∀ o' ∈ w.chunks.flatMap (fun e => e.2.objects), o'.id = i →
          o'.harvestable = true := by
        intro o' ho' hid
        have : o' ∈ occs w.chunks i :=
          List.mem_filter.2 ⟨ho', by simpa using hid⟩
        rw [hocc] at this
        rw [List.mem_singleton.1 this]
        exact hharv
      rw [respawn_after_deplete w.chunks i hall]
  · intro w i h
    have he := harvestAux_neg i w.chunks h
    show ((harvestAux i w.chunks).1,
      { w with chunks := (harvestAux i w.chunks).2.1 },
      (harvestAux i w.chunks).2.2) = (none, w, [])
    rw [he]

/-- Concrete harvestable flower for the C4 witness. -/
def F1 : Obj :=
  { id := (7, 1), type := .flower, treeType := none, x := 0, y := 0,
    harvestable := true, resource := some .flower, amount := some 1 }

/-- Concrete world caching one chunk that contains only `F1`. -/
def W1 : World :=
  { seed := 0, noise := flatNoise, rng := SeededRandom.ofSeed 0,
    chunks := [((0, 0),
      { x := 0, y := 0, tiles := [], objects := [F1], generated := true })],
    buildings := [], npcs := [],
    biomeNoise := flatNoise, moistureNoise := flatNoise }

/-- Witness for C4: harvesting the unique harvestable flower `F1` in `W1`
returns its resource and amount and schedules the 30-second timer. -/
theorem harvest_lifecycle_witness :
    (W1.harvestObject (7, 1)).1 = some (some Resource.flower, some 1) ∧
    (W1.harvestObject (7, 1)).2.2 = [((7, 1), 30000)] := by
  have hocc : occs W1.chunks (7, 1) = [F1] := by
    have hid : decide (F1.id = ((7 : Nat), (1 : Nat))) = true := by
      simp [F1]
    simp [occs, W1, List.flatMap_cons, List.filter, hid]
  have h := harvest_lifecycle.1 W1 (7, 1) F1 hocc rfl
  exact ⟨h.1, (h.2.2 (Or.inl rfl)).2.1⟩

lemma fade_nonneg (t : ℝ) (h0 : 0 ≤ t) (_h1 : t ≤ 1) :
    0 ≤ SimplexNoise.fade t := by
  have key : SimplexNoise.fade t = t^3 * (6*(t - 5/4)^2 + 5/8) := by
    unfold SimplexNoise.fade; ring
  rw [key]
  positivity

lemma fade_le_one (t : ℝ) (h0 : 0 ≤ t) (h1 : t ≤ 1) :
    SimplexNoise.fade t ≤ 1 := by
  have key : 1 - SimplexNoise.fade t = (1 - t)^3 * (6*t^2 + 3*t + 1) := by
    unfold SimplexNoise.fade; ring
  nlinarith [pow_nonneg (sub_nonneg.2 h1) 3, sq_nonneg t,
    mul_nonneg (pow_nonneg (sub_nonneg.2 h1) 3)
      (by positivity : (0:ℝ) ≤ 6*t^2 + 3*t + 1)]

lemma weight_le_half (t : ℝ) (h0 : 0 ≤ t) (h1 : t ≤ 1) :
    (1 - SimplexNoise.fade t) * t + SimplexNoise.fade t * (1 - t) ≤ 1 / 2 := by
  have key : 1/2 - ((1 - SimplexNoise.fade t) * t +
      SimplexNoise.fade t * (1 - t)) =
      2*(t - 1/2)^2*(6*t^2*(t - 1)^2 + 2*t*(1 - t) + 1) := by
    unfold SimplexNoise.fade; ring
  have hq : (0:ℝ) ≤ 6*t^2*(t - 1)^2 + 2*t*(1 - t) + 1 := by
    have h2 : 0 ≤ 2*t*(1 - t) := by
      apply mul_nonneg (by linarith)
      linarith
    nlinarith [sq_nonneg t, sq_nonneg (t - 1), mul_nonneg (sq_nonneg t) (sq_nonneg (t - 1))]
  nlinarith [mul_nonneg (by positivity : (0:ℝ) ≤ 2*(t - 1/2)^2) hq]

lemma dot_abs_le (g : ℝ × ℝ) (hg1 : |g.1| ≤ 1) (hg2 : |g.2| ≤ 1) (a b : ℝ) :
    |SimplexNoise.dot g a b| ≤ |a| + |b| := by
  unfold SimplexNoise.dot
  calc |g.1 * a + g.2 * b| ≤ |g.1 * a| + |g.2 * b| := abs_add _ _
    _ = |g.1| * |a| + |g.2| * |b| := by rw [abs_mul, abs_mul]
    _ ≤ 1 * |a| + 1 * |b| := by
        apply add_le_add
        · exact mul_le_mul_of_nonneg_right hg1 (abs_nonneg a)
        · exact mul_le_mul_of_nonneg_right hg2 (abs_nonneg b)
    _ = |a| + |b| := by ring

lemma lerp_abs_le (a b u A B : ℝ) (ha : |a| ≤ A) (hb : |b| ≤ B)
    (hu0 : 0 ≤ u) (hu1 : u ≤ 1) :
    |SimplexNoise.lerp a b u| ≤ (1 - u) * A + u * B := by
  have key : SimplexNoise.lerp a b u = (1 - u) * a + u * b := by
    unfold SimplexNoise.lerp; ring
  rw [key]
  calc |(1 - u) * a + u * b| ≤ |(1 - u) * a| + |u * b| := abs_add _ _
    _ = (1 - u) * |a| + u * |b| := by
        rw [abs_mul, abs_mul, abs_of_nonneg (by linarith : (0:ℝ) ≤ 1 - u),
          abs_of_nonneg hu0]
    _ ≤ (1 - u) * A + u * B := by
        apply add_le_add
        · exact mul_le_mul_of_nonneg_left ha (by linarith)
        · exact mul_le_mul_of_nonneg_left hb hu0

lemma getD_mem_or_default {α : Type} (l : List α) (n : Nat) (d : α) :
    l.getD n d ∈ l ∨ l.getD n d = d := by
  induction l generalizing n with
  | nil => exact Or.inr rfl
  | cons a t ih =>
      cases n with
      | zero => exact Or.inl (List.mem_cons_self a t)
      | succ m =>
          rcases ih m with h | h
          · exact Or.inl (List.mem_cons_of_mem a h)
          · exact Or.inr h

lemma noise_core_bound (gAA gBA gAB gBB : ℝ × ℝ)
    (hAA : |gAA.1| ≤ 1 ∧ |gAA.2| ≤ 1) (hBA : |gBA.1| ≤ 1 ∧ |gBA.2| ≤ 1)
    (hAB : |gAB.1| ≤ 1 ∧ |gAB.2| ≤ 1) (hBB : |gBB.1| ≤ 1 ∧ |gBB.2| ≤ 1)
    (xf yf : ℝ) (hx0 : 0 ≤ xf) (hx1 : xf ≤ 1) (hy0 : 0 ≤ yf) (hy1 : yf ≤ 1) :
    |SimplexNoise.lerp
      (SimplexNoise.lerp (SimplexNoise.dot gAA xf yf)
        (SimplexNoise.dot gBA (xf - 1) yf) (SimplexNoise.fade xf))
      (SimplexNoise.lerp (SimplexNoise.dot gAB xf (yf - 1))
        (SimplexNoise.dot gBB (xf - 1) (yf - 1)) (SimplexNoise.fade xf))
      (SimplexNoise.fade yf)| ≤ 1 := by
  have hu0 := fade_nonneg xf hx0 hx1
  have hu1 := fade_le_one xf hx0 hx1
  have hv0 := fade_nonneg yf hy0 hy1
  have hv1 := fade_le_one yf hy0 hy1
  have h1 : |SimplexNoise.dot gAA xf yf| ≤ xf + yf := by
    have h := dot_abs_le gAA hAA.1 hAA.2 xf yf
    rwa [abs_of_nonneg hx0, abs_of_nonneg hy0] at h
  have h2 : |SimplexNoise.dot gBA (xf - 1) yf| ≤ (1 - xf) + yf := by
    have h := dot_abs_le gBA hBA.1 hBA.2 (xf - 1) yf
    rwa [abs_of_nonpos (show xf - 1 ≤ 0 by linarith), abs_of_nonneg hy0,
      neg_sub] at h
  have h3 : |SimplexNoise.dot gAB xf (yf - 1)| ≤ xf + (1 - yf) := by
    have h := dot_abs_le gAB hAB.1 hAB.2 xf (yf - 1)
    rwa [abs_of_nonneg hx0, abs_of_nonpos (show yf - 1 ≤ 0 by linarith),
      neg_sub] at h
  have h4 : |SimplexNoise.dot gBB (xf - 1) (yf - 1)| ≤ (1 - xf) + (1 - yf) := by
    have h := dot_abs_le gBB hBB.1 hBB.2 (xf - 1) (yf - 1)
    rwa [abs_of_nonpos (show xf - 1 ≤ 0 by linarith),
      abs_of_nonpos (show yf - 1 ≤ 0 by linarith), neg_sub, neg_sub] at h
  have hx1b := lerp_abs_le _ _ (SimplexNoise.fade xf) _ _ h1 h2 hu0 hu1
  have hx2b := lerp_abs_le _ _ (SimplexNoise.fade xf) _ _ h3 h4 hu0 hu1
  have hfin := lerp_abs_le _ _ (SimplexNoise.fade yf) _ _ hx1b hx2b hv0 hv1
  have hA := weight_le_half xf hx0 hx1
  have hB := weight_le_half yf hy0 hy1
  have hid : (1 - SimplexNoise.fade yf) *
      ((1 - SimplexNoise.fade xf) * (xf + yf) +
        SimplexNoise.fade xf * ((1 - xf) + yf)) +
      SimplexNoise.fade yf *
      ((1 - SimplexNoise.fade xf) * (xf + (1 - yf)) +
        SimplexNoise.fade xf * ((1 - xf) + (1 - yf))) =
      ((1 - SimplexNoise.fade xf) * xf + SimplexNoise.fade xf * (1 - xf)) +
      ((1 - SimplexNoise.fade yf) * yf + SimplexNoise.fade yf * (1 - yf)) := by
    ring
  rw [hid] at hfin
  linarith

lemma noise2D_abs_le_one (n : SimplexNoise)
    (hg : ∀ g ∈ n.gradients, |g.1| ≤ 1 ∧ |g.2| ≤ 1) (x y : ℝ) :
    |n.noise2D x y| ≤ 1 := by
  have hgb : ∀ idx, |(n.gradients.getD idx (0, 0)).1| ≤ 1 ∧
      |(n.gradients.getD idx (0, 0)).2| ≤ 1 := by
    intro idx
    rcases getD_mem_or_default n.gradients idx (0, 0) with h | h
    · exact hg _ h
    · rw [h]; constructor <;> norm_num
  have hxf0 : (0:ℝ) ≤ x - ⌊x⌋ := by
    have := Int.floor_le x; linarith
  have hxf1 : x - (⌊x⌋ : ℝ) ≤ 1 := by
    have := Int.lt_floor_add_one x; linarith
  have hyf0 : (0:ℝ) ≤ y - ⌊y⌋ := by
    have := Int.floor_le y; linarith
  have hyf1 : y - (⌊y⌋ : ℝ) ≤ 1 := by
    have := Int.lt_floor_add_one y; linarith
  unfold SimplexNoise.noise2D
  exact noise_core_bound _ _ _ _ (hgb _) (hgb _) (hgb _) (hgb _)
    _ _ hxf0 hxf1 hyf0 hyf1

lemma buildGradientsAux_bound (k : Nat) :
    ∀ (acc : List (ℝ × ℝ)) (rng : SeededRandom),
      (∀ g ∈ acc, |g.1| ≤ 1 ∧ |g.2| ≤ 1) →
      ∀ g ∈ (buildGradientsAux k acc rng).1, |g.1| ≤ 1 ∧ |g.2| ≤ 1 := by
  induction k with
  | zero => intro acc rng hacc g hgm; exact hacc g hgm
  | succ m ih =>
      intro acc rng hacc g hgm
      refine ih _ _ ?_ g hgm
      intro g' hg'
      rcases List.mem_append.1 hg' with h | h
      · exact hacc g' h
      · rw [List.mem_singleton.1 h]
        exact ⟨by simpa using Real.abs_cos_le_one _,
          by simpa using Real.abs_sin_le_one _⟩

lemma ofSeed_grads_bound (seed : Int) :
    ∀ g ∈ (SimplexNoise.ofSeed seed).gradients, |g.1| ≤ 1 ∧ |g.2| ≤ 1 := by
  intro g hgm
  exact buildGradientsAux_bound 256 []
    (buildPermutation (SeededRandom.ofSeed seed)).2 (by intro g' h; simp at h)
    g hgm

lemma fbmAux_maxV_mono (n : SimplexNoise) (x y lac pers : ℝ) (hp : 0 ≤ pers)
    (k : Nat) :
    ∀ amp freq acc maxV, 0 ≤ amp →
      maxV ≤ (fbmAux n x y lac pers k amp freq acc maxV).2 := by
  induction k with
  | zero => intro amp freq acc maxV _; exact le_refl _
  | succ m ih =>
      intro amp freq acc maxV hamp
      calc maxV ≤ maxV + amp := by linarith
        _ ≤ _ := ih (amp * pers) (freq * lac) _ _ (mul_nonneg hamp hp)

lemma fbmAux_acc_bound (n : SimplexNoise)
    (hn : ∀ a b : ℝ, |n.noise2D a b| ≤ 1) (x y lac pers : ℝ) (hp : 0 ≤ pers)
    (k : Nat) :
    ∀ amp freq acc maxV, 0 ≤ amp →
      |(fbmAux n x y lac pers k amp freq acc maxV).1 - acc| ≤
        (fbmAux n x y lac pers k amp freq acc maxV).2 - maxV := by
  induction k with
  | zero =>
      intro amp freq acc maxV _
      simp [fbmAux]
  | succ m ih =>
      intro amp freq acc maxV hamp
      have hstep := ih (amp * pers) (freq * lac)
        (acc + amp * n.noise2D (x * freq) (y * freq)) (maxV + amp)
        (mul_nonneg hamp hp)
      have hnv : |amp * n.noise2D (x * freq) (y * freq)| ≤ amp := by
        rw [abs_mul, abs_of_nonneg hamp]
        calc amp * |n.noise2D (x * freq) (y * freq)| ≤ amp * 1 :=
              mul_le_mul_of_nonneg_left (hn _ _) hamp
          _ = amp := mul_one amp
      show |(fbmAux n x y lac pers m (amp * pers) (freq * lac)
          (acc + amp * n.noise2D (x * freq) (y * freq)) (maxV + amp)).1 - acc| ≤
        (fbmAux n x y lac pers m (amp * pers) (freq * lac)
          (acc + amp * n.noise2D (x * freq) (y * freq)) (maxV + amp)).2 - maxV
      have htri : |(fbmAux n x y lac pers m (amp * pers) (freq * lac)
          (acc + amp * n.noise2D (x * freq) (y * freq)) (maxV + amp)).1 - acc| ≤
          |(fbmAux n x y lac pers m (amp * pers) (freq * lac)
            (acc + amp * n.noise2D (x * freq) (y * freq)) (maxV + amp)).1 -
            (acc + amp * n.noise2D (x * freq) (y * freq))| +
          |amp * n.noise2D (x * freq) (y * freq)| := by
        have := abs_sub_le
          (fbmAux n x y lac pers m (amp * pers) (freq * lac)
            (acc + amp * n.noise2D (x * freq) (y * freq)) (maxV + amp)).1
          (acc + amp * n.noise2D (x * freq) (y * freq)) acc
        calc |(fbmAux n x y lac pers m (amp * pers) (freq * lac)
            (acc + amp * n.noise2D (x * freq) (y * freq)) (maxV + amp)).1 -
              acc| ≤ _ := this
          _ = _ := by rw [show acc + amp * n.noise2D (x * freq) (y * freq) -
                acc = amp * n.noise2D (x * freq) (y * freq) by ring]
      linarith

lemma fbm_abs_le_one (n : SimplexNoise)
    (hn : ∀ a b : ℝ, |n.noise2D a b| ≤ 1) (x y lac pers : ℝ) (hp : 0 ≤ pers)
    (oct : Nat) (hoct : 1 ≤ oct) :
    |n.fbm x y oct lac pers| ≤ 1 := by
  obtain ⟨m, rfl⟩ : ∃ m, oct = m + 1 :=
    ⟨oct - 1, by omega⟩
  unfold SimplexNoise.fbm
  simp only []
  have hone : (fbmAux n x y lac pers (m + 1) 1 1 0 0).2 ≥ 1 := by
    show (1 : ℝ) ≤ (fbmAux n x y lac pers m (1 * pers) (1 * lac)
      (0 + 1 * n.noise2D (x * 1) (y * 1)) (0 + 1)).2
    calc (1 : ℝ) = 0 + 1 := by ring
      _ ≤ _ := fbmAux_maxV_mono n x y lac pers hp m (1 * pers) (1 * lac) _ _
          (by simpa using hp)
  have hvb : |(fbmAux n x y lac pers (m + 1) 1 1 0 0).1 - 0| ≤
      (fbmAux n x y lac pers (m + 1) 1 1 0 0).2 - 0 :=
    fbmAux_acc_bound n hn x y lac pers hp (m + 1) 1 1 0 0 (by norm_num)
  rw [sub_zero, sub_zero] at hvb
  rw [abs_div]
  rw [abs_of_nonneg (by linarith :
    (0:ℝ) ≤ (fbmAux n x y lac pers (m + 1) 1 1 0 0).2)]
  rw [div_le_one (by linarith)]
  linarith

/-- C8: for every seed and all real inputs, the gradient noise stays
within [-1.01, 1.01] (it is in fact within [-1, 1]: all gradient
components lie in [-1, 1] and the fade-weighted bilinear blend of the
corner dot products is bounded by 1), and for every octave count from 1
to 8 with lacunarity 2 and persistence 0.5, `fbm` also stays within
[-1.01, 1.01] because the octave sum is divided by the sum of the
amplitudes. -/
theorem noise_bounds (seed : Int) (x y : ℝ) :
    |(SimplexNoise.ofSeed seed).noise2D x y| ≤ 1.01 ∧
    (∀ oct : Nat, 1 ≤ oct → oct ≤ 8 →
      |(SimplexNoise.ofSeed seed).fbm x y oct 2 0.5| ≤ 1.01) := by
  have hb := ofSeed_grads_bound seed
  constructor
  · calc |(SimplexNoise.ofSeed seed).noise2D x y| ≤ 1 :=
        noise2D_abs_le_one _ hb x y
      _ ≤ 1.01 := by norm_num
  · intro oct h1 _
    calc |(SimplexNoise.ofSeed seed).fbm x y oct 2 0.5| ≤ 1 :=
        fbm_abs_le_one _ (fun a b => noise2D_abs_le_one _ hb a b)
          x y 2 0.5 (by norm_num) oct h1
      _ ≤ 1.01 := by norm_num

/-- Witness for C8: octave count 4 (within 1..8) at seed 0 and the
origin. -/
theorem noise_bounds_witness :
    |(SimplexNoise.ofSeed 0).fbm 0 0 4 2 0.5| ≤ 1.01 :=
  (noise_bounds 0 0 0).2 4 (by norm_num) (by norm_num)
